import Mathlib

/-!
Verification development for the MediaCodec-based hardware video decoder
(media_codec_video_decoder.cc).  The decoder state machine, its I/O step
(QueueInput / DequeueOutput / DoIOTask), reset / destroy / drain handling and
the shared poll-timer manager (MCVDManager) are shallowly embedded below.
Codec-resource results (DequeueInputBuffer, QueueInputBuffer,
DequeueOutputBuffer) and external-collaborator outcomes (GL context, codec
allocator, picture-buffer manager) are supplied as explicit oracle inputs.
-/

namespace MCVD

/-- Decoder states of the MediaCodecVideoDecoder state machine. -/
inductive DecState
  | noError
  | waitingForCodec
  | waitingForKey
  | surfaceDestroyed
  | error
  deriving DecidableEq, Repr

/-- Drain intents (DRAIN_TYPE_NONE, DRAIN_FOR_FLUSH, DRAIN_FOR_RESET,
DRAIN_FOR_DESTROY). -/
inductive DrainType
  | noDrain
  | forFlush
  | forReset
  | forDestroy
  deriving DecidableEq, Repr

/-- Video codec kinds relevant to the decoder. -/
inductive VideoCodec
  | h264
  | vp8
  | vp9
  | hevc
  | unknownCodec
  deriving DecidableEq, Repr

/-- Error codes of the client error callback. -/
inductive ErrCode
  | invalidArgument
  | unreadableInput
  | platformFailure
  deriving DecidableEq, Repr

/-- One pending input record (BitstreamRecord): client id (-1 denotes the
end-of-stream marker), byte size, abstract payload reference, presentation
timestamp in microseconds, and encryption metadata. -/
structure BitstreamRecord where
  id : Int
  size : Nat
  payload : Nat
  pts : Int
  keyId : List Nat
  iv : List Nat
  deriving DecidableEq, Repr

/-- The end-of-stream marker record enqueued by StartCodecDrain. -/
def EosRecord : BitstreamRecord :=
  { id := -1, size := 0, payload := 0, pts := 0, keyId := [], iv := [] }

/-- Observable effects of the decoder: codec-resource commands and client
notifications (posted notifications are modelled as emitted events). -/
inductive Ev
  | queueEOS (idx : Int)
  | submitInput (idx : Int) (mem : Option Nat) (size : Nat) (pts : Int) (secure : Bool)
  | endOfBitstreamBuffer (id : Int)
  | pictureReady (pictureId : Int) (bitstreamId : Int)
  | notifyError (e : ErrCode)
  | notifyFlushDone
  | notifyResetDone
  | notifyInitDone (ok : Bool)
  | releaseOutputBuffer (idx : Int) (render : Bool)
  | releaseMediaCodec
  | codecFlush
  | createCodecAsync
  | postActualDestroy
  | actualDestroyDone
  deriving DecidableEq, Repr

/-- Result of MediaCodec DequeueInputBuffer. -/
inductive DequeueInputResult
  | againLater
  | codecError
  | okIndex (idx : Int)
  deriving DecidableEq, Repr

/-- Result of MediaCodec QueueInputBuffer / QueueSecureInputBuffer. -/
inductive QueueInputStatus
  | ok
  | noKey
  | codecErr
  deriving DecidableEq, Repr

/-- One oracle response consumed by a QueueInput attempt that reaches the
codec: the DequeueInputBuffer outcome and the Queue(Secure)InputBuffer
status. -/
structure InputResp where
  dequeue : DequeueInputResult
  queueStatus : QueueInputStatus
  deriving DecidableEq, Repr

/-- Result of one MediaCodec DequeueOutputBuffer call. -/
inductive OutputResp
  | codecError
  | againLater
  | formatChanged (sz : Nat × Nat) (getSizeOk : Bool)
  | buffersChanged
  | okBuf (idx : Int) (pts : Int) (eos : Bool)
  deriving DecidableEq, Repr

/-- Task types the codec allocator can hand out for codec construction. -/
inductive TaskType
  | autoCodec
  | swCodec
  | failedCodec
  deriving DecidableEq, Repr

/-- Ambient environment: current time and outcomes of external collaborators
(GL context, shared-memory mapping, codec allocator, picture buffer
manager). -/
structure Ext where
  now : Int
  makeContextCurrent : Bool
  shmMapOk : Bool
  codecNeedsFlushWorkaround : Bool
  taskType : TaskType
  useCodecBufferOk : Bool
  hasUnrenderedPictures : Bool
  allocateSurfaceOk : Bool
  pbmInitSurfaceOk : Bool
  setSurfaceOk : Bool
  deriving DecidableEq, Repr

/-- The MediaCodecVideoDecoder instance state. -/
structure Mcvd where
  state : DecState
  pendingBitstreamRecords : List BitstreamRecord
  bitstreamBuffersInDecoder : List (Int × Int)
  bitstreamsNotifiedInAdvance : List Int
  pendingInputBufIndex : Int
  drainType : DrainType
  codecNeedsReset : Bool
  deferSurfaceCreation : Bool
  mediaCodec : Bool
  codecKind : VideoCodec
  isEncrypted : Bool
  freePictureIds : List Int
  outputPictureBuffers : List (Int × (Nat × Nat))
  pendingSurfaceId : Option Int
  surfaceId : Int
  outputSize : Nat × Nat
  codecInputBuffers : List (Int × Nat)
  deferredInitPending : Bool
  clientPresent : Bool
  mostRecentWork : Option Int
  timerRegistered : Bool
  deriving DecidableEq, Repr

/-- Backpressure limit kMaxBitstreamsNotifiedInAdvance. -/
def kMaxBitstreamsNotifiedInAdvance : Nat := 32

/-- Idle threshold of the poll timer (IdleTimerTimeOut, one second in
microseconds). -/
def IdleTimerTimeOut : Int := 1000000

/-- Ordered-map insertion with overwrite (std::map operator[] assignment),
keeping keys sorted ascending. -/
def MapInsert : List (Int × Int) → Int → Int → List (Int × Int)
  | [], k, v => [(k, v)]
  | p :: rest, k, v =>
    if k < p.1 then (k, v) :: p :: rest
    else if k = p.1 then (k, v) :: rest
    else p :: MapInsert rest k v

/-- Exact-key lookup (std::map find). -/
def MapFind : List (Int × Int) → Int → Option Int
  | [], _ => none
  | p :: rest, k => if p.1 = k then some p.2 else MapFind rest k

/-- Erase the range from begin through the first entry with the given key,
inclusive (std::map erase(begin, ++it) after a successful find). -/
def EraseThroughKey : List (Int × Int) → Int → List (Int × Int)
  | [], _ => []
  | p :: rest, k => if p.1 = k then rest else EraseThroughKey rest k

/-- Suffix of the list after the first occurrence of the element, if any. -/
def SuffixAfter : List Int → Int → Option (List Int)
  | [], _ => none
  | x :: xs, id => if x = id then some xs else SuffixAfter xs id

/-- Erase the prefix of bitstreamsNotifiedInAdvance through the first
occurrence of the id, leaving the list unchanged when the id is absent. -/
def RemoveThrough (l : List Int) (id : Int) : List Int :=
  (SuffixAfter l id).getD l

/-- Association update on the codec-input-buffer contents map. -/
def BufSet : List (Int × Nat) → Int → Nat → List (Int × Nat)
  | [], k, v => [(k, v)]
  | p :: rest, k, v =>
    if p.1 = k then (k, v) :: rest else p :: BufSet rest k v

/-- Lookup in the codec-input-buffer contents map. -/
def BufFind : List (Int × Nat) → Int → Option Nat
  | [], _ => none
  | p :: rest, k => if p.1 = k then some p.2 else BufFind rest k

/-- Lookup in the picture-buffer map. -/
def PbFind : List (Int × (Nat × Nat)) → Int → Option (Nat × Nat)
  | [], _ => none
  | p :: rest, k => if p.1 = k then some p.2 else PbFind rest k

/-- Association update on the picture-buffer map. -/
def PbSet : List (Int × (Nat × Nat)) → Int → (Nat × Nat) → List (Int × (Nat × Nat))
  | [], k, v => [(k, v)]
  | p :: rest, k, v =>
    if p.1 = k then (k, v) :: rest else p :: PbSet rest k v

/-- State-and-events result of a helper transition. -/
structure SRes where
  s : Mcvd
  evs : List Ev
  deriving DecidableEq, Repr

/-- IsDrainingForResetOrDestroy. -/
def IsDrainingForResetOrDestroy (s : Mcvd) : Bool :=
  s.drainType = DrainType.forReset || s.drainType = DrainType.forDestroy

/-- NotifyError: enter the error state and report to the client when one is
attached. -/
def NotifyError (e : ErrCode) (s : Mcvd) : SRes :=
  { s := { s with state := DecState.error },
    evs := if s.clientPresent then [Ev.notifyError e] else [] }

/-- ManageTimer: refresh the most-recent-work stamp, stopping the poll timer
for this instance after the idle threshold with no work. -/
def ManageTimer (s : Mcvd) (didWork : Bool) (ext : Ext) : Mcvd :=
  let idleStop : Bool := !didWork && s.mostRecentWork.isSome &&
    decide (ext.now - s.mostRecentWork.getD 0 > IdleTimerTimeOut)
  let newMrw : Option Int :=
    if !didWork && s.mostRecentWork.isSome then
      (if idleStop then none else s.mostRecentWork)
    else some ext.now
  { s with mostRecentWork := newMrw, timerRegistered := !idleStop }

/-- IsMediaCodecSoftwareDecodingForbidden on the instance configuration. -/
def IsSwForbidden (s : Mcvd) : Bool :=
  !s.isEncrypted && (s.codecKind = VideoCodec.vp8 || s.codecKind = VideoCodec.vp9)

/-- OnCodecConfigured: apply the (possibly failed) result of asynchronous
codec construction. -/
def OnCodecConfigured (s : Mcvd) (codecOk : Bool) (ext : Ext) : SRes :=
  let r1 : Mcvd × List Ev :=
    if s.deferredInitPending then
      ({ s with deferredInitPending := false },
       [Ev.notifyInitDone (if s.state = DecState.surfaceDestroyed then true else codecOk)])
    else (s, [])
  if r1.1.state = DecState.surfaceDestroyed then { s := r1.1, evs := r1.2 }
  else
    let s2 : Mcvd := { r1.1 with mediaCodec := codecOk }
    if !codecOk then
      let r2 := NotifyError ErrCode.platformFailure s2
      { s := r2.s, evs := r1.2 ++ r2.evs }
    else
      { s := ManageTimer { s2 with state := DecState.noError } true ext, evs := r1.2 }

/-- ConfigureMediaCodecAsynchronously: release any current codec, enter
waitingForCodec and start asynchronous construction; fall through to a
failed OnCodecConfigured when no allocator thread is usable. -/
def ConfigureCodecAsync (s : Mcvd) (ext : Ext) : SRes :=
  let s1 : Mcvd := { s with state := DecState.waitingForCodec }
  let r1 : Mcvd × List Ev :=
    if s1.mediaCodec then ({ s1 with mediaCodec := false }, [Ev.releaseMediaCodec])
    else (s1, [])
  match ext.taskType with
  | TaskType.failedCodec =>
      let r2 := OnCodecConfigured r1.1 false ext
      { s := r2.s, evs := r1.2 ++ r2.evs }
  | TaskType.swCodec =>
      if IsSwForbidden r1.1 then
        let r2 := OnCodecConfigured r1.1 false ext
        { s := r2.s, evs := r1.2 ++ r2.evs }
      else { s := r1.1, evs := r1.2 ++ [Ev.createCodecAsync] }
  | TaskType.autoCodec => { s := r1.1, evs := r1.2 ++ [Ev.createCodecAsync] }

/-- ResetCodecState: clear the in-decoder timestamp map and the no-key retry
slot, leave the error state, and flush or reconfigure the codec. -/
def ResetCodecState (s : Mcvd) (ext : Ext) : SRes :=
  if s.state = DecState.waitingForCodec || s.state = DecState.surfaceDestroyed then
    { s := s, evs := [] }
  else
    let didError : Bool := s.state = DecState.error
    let s1 : Mcvd := { s with
      bitstreamBuffersInDecoder := []
      pendingInputBufIndex := -1
      state := DecState.noError
      codecNeedsReset := false }
    if s.drainType = DrainType.forFlush && !didError then
      { s := { s1 with codecNeedsReset := true }, evs := [] }
    else if !didError && !ext.codecNeedsFlushWorkaround then
      { s := s1, evs := [Ev.codecFlush] }
    else
      ConfigureCodecAsync { s1 with timerRegistered := false } ext

/-- OnDrainCompleted: resolve the pending drain intent, resetting codec state
and posting the matching completion (flush done, reset done, or the actual
destroy task). -/
def OnDrainCompleted (s : Mcvd) (ext : Ext) : SRes :=
  let r1 : Mcvd × List Ev :=
    match s.drainType with
    | DrainType.noDrain =>
        let r := ResetCodecState { s with state := DecState.error } ext
        (r.s, r.evs)
    | DrainType.forFlush =>
        let r := ResetCodecState s ext
        (r.s, r.evs ++ [Ev.notifyFlushDone])
    | DrainType.forReset =>
        let r := ResetCodecState s ext
        (r.s, r.evs ++ [Ev.notifyResetDone])
    | DrainType.forDestroy =>
        let r := ResetCodecState s ext
        (r.s, r.evs ++ [Ev.postActualDestroy])
  { s := { r1.1 with drainType := DrainType.noDrain }, evs := r1.2 }

/-- Result of a QueueInput call: next state, whether progress was made, the
emitted effects, and the unconsumed input-oracle responses. -/
structure QIRes where
  s : Mcvd
  did : Bool
  evs : List Ev
  ins : List InputResp
  deriving DecidableEq, Repr

/-- Tail of QueueInput once the codec input-buffer index is known.  fresh is
true when the index was dequeued now (pending_input_buf_index_ was -1), so
the shared memory is mapped and copied; on a no-key retry the codec buffer
already holds the data and no memory is passed. -/
def QueueInputWithIndex (s : Mcvd) (ext : Ext) (front : BitstreamRecord)
    (rest : List BitstreamRecord) (idx : Int) (fresh : Bool)
    (qstatus : QueueInputStatus) (insRest : List InputResp) : QIRes :=
  if front.id = -1 then
    { s := { s with pendingBitstreamRecords := rest }, did := true,
      evs := [Ev.queueEOS idx], ins := insRest }
  else if fresh && !ext.shmMapOk then
    let r := NotifyError ErrCode.unreadableInput s
    { s := r.s, did := false, evs := r.evs, ins := insRest }
  else
    let memWritten : Option Nat := if fresh then some front.payload else none
    let s1 : Mcvd :=
      if fresh then { s with codecInputBuffers := BufSet s.codecInputBuffers idx front.payload }
      else s
    let s2 : Mcvd := { s1 with
      bitstreamBuffersInDecoder := MapInsert s1.bitstreamBuffersInDecoder front.pts front.id }
    let secure : Bool := !(front.keyId.isEmpty || front.iv.isEmpty)
    let submitEv : Ev := Ev.submitInput idx memWritten front.size front.pts secure
    match qstatus with
    | QueueInputStatus.noKey =>
        { s := { s2 with pendingInputBufIndex := idx, state := DecState.waitingForKey },
          did := false, evs := [submitEv], ins := insRest }
    | QueueInputStatus.ok =>
        { s := { s2 with
            pendingInputBufIndex := -1
            pendingBitstreamRecords := rest
            bitstreamsNotifiedInAdvance := s2.bitstreamsNotifiedInAdvance ++ [front.id] },
          did := true,
          evs := [submitEv, Ev.endOfBitstreamBuffer front.id], ins := insRest }
    | QueueInputStatus.codecErr =>
        let s3 : Mcvd := { s2 with
          pendingInputBufIndex := -1
          pendingBitstreamRecords := rest
          bitstreamsNotifiedInAdvance := s2.bitstreamsNotifiedInAdvance ++ [front.id] }
        let r := NotifyError ErrCode.platformFailure s3
        { s := r.s, did := false,
          evs := [submitEv, Ev.endOfBitstreamBuffer front.id] ++ r.evs, ins := insRest }

/-- QueueInput: submit the queue head to the codec when a codec input buffer
is available, handling end-of-stream markers, the no-key retry slot, and the
backpressure limit. -/
def QueueInput (s : Mcvd) (ext : Ext) (ins : List InputResp) : QIRes :=
  if s.state = DecState.error || s.state = DecState.waitingForCodec ||
     s.state = DecState.waitingForKey then
    { s := s, did := false, evs := [], ins := ins }
  else if s.bitstreamsNotifiedInAdvance.length > kMaxBitstreamsNotifiedInAdvance then
    { s := s, did := false, evs := [], ins := ins }
  else
    match s.pendingBitstreamRecords with
    | [] => { s := s, did := false, evs := [], ins := ins }
    | front :: rest =>
      match ins with
      | [] => { s := s, did := false, evs := [], ins := [] }
      | resp :: insRest =>
        if s.pendingInputBufIndex = -1 then
          match resp.dequeue with
          | DequeueInputResult.againLater =>
              { s := s, did := false, evs := [], ins := insRest }
          | DequeueInputResult.codecError =>
              let r := NotifyError ErrCode.platformFailure s
              { s := r.s, did := false, evs := r.evs, ins := insRest }
          | DequeueInputResult.okIndex idx =>
              QueueInputWithIndex s ext front rest idx true resp.queueStatus insRest
        else
          QueueInputWithIndex s ext front rest s.pendingInputBufIndex false
            resp.queueStatus insRest

/-- SendDecodedFrameToClient: check out the next free picture buffer, emit
picture ready, and bind the codec output buffer to it. -/
def SendDecodedFrameToClient (s : Mcvd) (ext : Ext) (codecBufIndex : Int)
    (bitstreamId : Int) : SRes :=
  if !ext.makeContextCurrent then NotifyError ErrCode.platformFailure s
  else
    match s.freePictureIds with
    | [] => { s := s, evs := [] }
    | pid :: restFree =>
      let s1 : Mcvd := { s with freePictureIds := restFree }
      match PbFind s1.outputPictureBuffers pid with
      | none => NotifyError ErrCode.platformFailure s1
      | some pbSize =>
        let sizeChanged : Bool := pbSize ≠ s1.outputSize
        let s2 : Mcvd :=
          if sizeChanged then
            { s1 with outputPictureBuffers := PbSet s1.outputPictureBuffers pid s1.outputSize }
          else s1
        if !ext.useCodecBufferOk then
          let r := NotifyError ErrCode.platformFailure s2
          { s := r.s, evs := [Ev.pictureReady pid bitstreamId] ++ r.evs }
        else { s := s2, evs := [Ev.pictureReady pid bitstreamId] }

/-- UpdateSurface: apply a pending surface switch, releasing the codec when
migration fails at any step. -/
def UpdateSurface (s : Mcvd) (ext : Ext) : Mcvd × Bool × List Ev :=
  let newId : Int := s.pendingSurfaceId.getD 0
  let s0 : Mcvd := { s with pendingSurfaceId := none }
  let a1 : Bool := ext.allocateSurfaceOk
  let r1 : Mcvd × List Ev :=
    if !a1 then
      let r := NotifyError ErrCode.platformFailure s0
      (r.s, r.evs)
    else (s0, [])
  let a2 : Bool := a1 && ext.makeContextCurrent
  let r2 : Mcvd × List Ev :=
    if a1 && !a2 then
      let r := NotifyError ErrCode.platformFailure r1.1
      (r.s, r1.2 ++ r.evs)
    else r1
  let a3 : Bool := a2 && ext.pbmInitSurfaceOk
  let r3 : Mcvd × List Ev :=
    if a2 && !a3 then
      let r := NotifyError ErrCode.platformFailure r2.1
      (r.s, r2.2 ++ r.evs)
    else r2
  let a4 : Bool := a3 && (!r3.1.mediaCodec || ext.setSurfaceOk)
  let r4 : Mcvd × List Ev :=
    if a3 && !a4 then
      let r := NotifyError ErrCode.platformFailure r3.1
      (r.s, r3.2 ++ r.evs)
    else r3
  if a4 then ({ r4.1 with surfaceId := newId }, true, r4.2)
  else
    let r5 : Mcvd × List Ev :=
      if r4.1.mediaCodec then
        ({ r4.1 with mediaCodec := false }, r4.2 ++ [Ev.releaseMediaCodec])
      else r4
    (r5.1, false, r5.2)

/-- Result of a DequeueOutput call: next state, whether progress was made,
emitted effects, and unconsumed output-oracle responses. -/
structure DQRes where
  s : Mcvd
  did : Bool
  evs : List Ev
  outs : List OutputResp
  deriving DecidableEq, Repr

/-- Inner DequeueOutputBuffer loop of DequeueOutput: repeat while the codec
reports output-buffers-changed, then handle the terminal status. -/
def DequeueLoop (s : Mcvd) (ext : Ext) (acc : List Ev) :
    List OutputResp → DQRes
  | [] => { s := s, did := false, evs := acc, outs := [] }
  | r :: rest =>
    match r with
    | OutputResp.codecError =>
        if IsDrainingForResetOrDestroy s then
          let r2 := OnDrainCompleted { s with state := DecState.error } ext
          { s := r2.s, did := false, evs := acc ++ r2.evs, outs := rest }
        else
          let r2 := NotifyError ErrCode.platformFailure s
          { s := r2.s, did := false, evs := acc ++ r2.evs, outs := rest }
    | OutputResp.againLater => { s := s, did := false, evs := acc, outs := rest }
    | OutputResp.formatChanged sz getSizeOk =>
        if s.drainType = DrainType.forDestroy then
          { s := s, did := true, evs := acc, outs := rest }
        else if !getSizeOk then
          let r2 := NotifyError ErrCode.platformFailure s
          { s := r2.s, did := false, evs := acc ++ r2.evs, outs := rest }
        else
          { s := { s with outputSize := sz }, did := true, evs := acc, outs := rest }
    | OutputResp.buffersChanged => DequeueLoop s ext acc rest
    | OutputResp.okBuf idx pts eos =>
        if eos then
          let r2 := OnDrainCompleted s ext
          { s := r2.s, did := false, evs := acc ++ r2.evs, outs := rest }
        else if IsDrainingForResetOrDestroy s then
          { s := s, did := true, evs := acc ++ [Ev.releaseOutputBuffer idx false],
            outs := rest }
        else
          match MapFind s.bitstreamBuffersInDecoder pts with
          | some bid =>
            let s1 : Mcvd := { s with
              bitstreamBuffersInDecoder := EraseThroughKey s.bitstreamBuffersInDecoder pts }
            let r2 := SendDecodedFrameToClient s1 ext idx bid
            let s2 : Mcvd := { r2.s with
              bitstreamsNotifiedInAdvance := RemoveThrough r2.s.bitstreamsNotifiedInAdvance bid }
            { s := s2, did := true, evs := acc ++ r2.evs, outs := rest }
          | none =>
            { s := s, did := true, evs := acc ++ [Ev.releaseOutputBuffer idx false],
              outs := rest }

/-- DequeueOutput: drain one ready output from the codec, pausing when no
free picture buffer is available or a surface switch is pending. -/
def DequeueOutput (s : Mcvd) (ext : Ext) (outs : List OutputResp) : DQRes :=
  if s.state = DecState.error || s.state = DecState.waitingForCodec then
    { s := s, did := false, evs := [], outs := outs }
  else if !s.outputPictureBuffers.isEmpty && s.freePictureIds.isEmpty &&
          !IsDrainingForResetOrDestroy s then
    { s := s, did := false, evs := [], outs := outs }
  else if s.pendingSurfaceId.isSome then
    if ext.hasUnrenderedPictures then
      { s := s, did := false, evs := [], outs := outs }
    else
      if !(UpdateSurface s ext).2.1 then
        { s := (UpdateSurface s ext).1, did := false,
          evs := (UpdateSurface s ext).2.2, outs := outs }
      else DequeueLoop (UpdateSurface s ext).1 ext (UpdateSurface s ext).2.2 outs
  else DequeueLoop s ext [] outs

/-- Result of a DoIOTask call. -/
structure IORes where
  s : Mcvd
  evs : List Ev
  ins : List InputResp
  outs : List OutputResp
  deriving DecidableEq, Repr

/-- Result of the inner DoIOTask loop. -/
structure LoopRes where
  s : Mcvd
  did : Bool
  evs : List Ev
  ins : List InputResp
  outs : List OutputResp
  deriving DecidableEq, Repr

/-- The do-while loop of DoIOTask: alternate QueueInput and DequeueOutput
until neither direction makes progress (fuel bounds the model recursion). -/
def IoLoop : Nat → Mcvd → Ext → List InputResp → List OutputResp → LoopRes
  | 0, s, _, ins, outs => { s := s, did := false, evs := [], ins := ins, outs := outs }
  | Nat.succ fuel, s, ext, ins, outs =>
    let qi := QueueInput s ext ins
    let dq := DequeueOutput qi.s ext outs
    if qi.did || dq.did then
      let r := IoLoop fuel dq.s ext qi.ins dq.outs
      { s := r.s, did := true, evs := qi.evs ++ dq.evs ++ r.evs, ins := r.ins, outs := r.outs }
    else
      { s := dq.s, did := false, evs := qi.evs ++ dq.evs, ins := qi.ins, outs := dq.outs }

/-- DoIOTask: run the I/O loop unless the decoder is in error, waiting for a
codec, or lost its surface; then update the poll-timer bookkeeping. -/
def DoIOTask (fuel : Nat) (startTimer : Bool) (s : Mcvd) (ext : Ext)
    (ins : List InputResp) (outs : List OutputResp) : IORes :=
  if s.state = DecState.error || s.state = DecState.waitingForCodec ||
     s.state = DecState.surfaceDestroyed then
    { s := s, evs := [], ins := ins, outs := outs }
  else
    let r := IoLoop fuel s ext ins outs
    { s := ManageTimer r.s (r.did || startTimer) ext, evs := r.evs,
      ins := r.ins, outs := r.outs }

/-- DecodeBuffer: enqueue a record and kick one I/O step. -/
def DecodeBuffer (fuel : Nat) (b : BitstreamRecord) (s : Mcvd) (ext : Ext)
    (ins : List InputResp) (outs : List OutputResp) : IORes :=
  DoIOTask fuel true
    { s with pendingBitstreamRecords := s.pendingBitstreamRecords ++ [b] }
    ext ins outs

/-- StartCodecDrain: record the drain intent and enqueue an end-of-stream
marker unless a drain is already in flight. -/
def StartCodecDrain (fuel : Nat) (dt : DrainType) (s : Mcvd) (ext : Ext)
    (ins : List InputResp) (outs : List OutputResp) : IORes :=
  let enqueueEos : Bool := s.drainType = DrainType.noDrain
  let s1 : Mcvd := { s with drainType := dt }
  if enqueueEos then DecodeBuffer fuel EosRecord s1 ext ins outs
  else { s := s1, evs := [], ins := ins, outs := outs }

/-- Notifications emitted by the Reset cancellation loop: one
end-of-bitstream-buffer per queued record that is not the end-of-stream
marker. -/
def CancelEvents (l : List BitstreamRecord) : List Ev :=
  l.filterMap fun b => if b.id = -1 then none else some (Ev.endOfBitstreamBuffer b.id)

/-- Reset: cancel every queued-but-unsubmitted input, then either drain
(VP8 with inputs still in the codec) or reset codec state immediately. -/
def Reset (fuel : Nat) (s : Mcvd) (ext : Ext) (ins : List InputResp)
    (outs : List OutputResp) : IORes :=
  if s.deferSurfaceCreation then
    { s := s, evs := [Ev.notifyResetDone], ins := ins, outs := outs }
  else
    let cancelEvs := CancelEvents s.pendingBitstreamRecords
    let s1 : Mcvd := { s with
      pendingBitstreamRecords := []
      bitstreamsNotifiedInAdvance := [] }
    if s1.mediaCodec && s1.codecKind = VideoCodec.vp8 &&
       !s1.bitstreamBuffersInDecoder.isEmpty then
      let r := StartCodecDrain fuel DrainType.forReset s1 ext ins outs
      { s := r.s, evs := cancelEvs ++ r.evs, ins := r.ins, outs := r.outs }
    else
      let r := ResetCodecState s1 ext
      { s := r.s, evs := cancelEvs ++ r.evs ++ [Ev.notifyResetDone],
        ins := ins, outs := outs }

/-- ActualDestroy: stop the poll timer, release the codec if present, and
tear the instance down. -/
def ActualDestroy (s : Mcvd) : SRes :=
  let s1 : Mcvd := { s with timerRegistered := false }
  if s1.mediaCodec then
    { s := { s1 with mediaCodec := false },
      evs := [Ev.releaseMediaCodec, Ev.actualDestroyDone] }
  else { s := s1, evs := [Ev.actualDestroyDone] }

/-- Destroy: detach the client; VP8 with a live codec requires a full drain
before release, so start a drain-for-destroy, otherwise tear down now. -/
def Destroy (fuel : Nat) (s : Mcvd) (ext : Ext) (ins : List InputResp)
    (outs : List OutputResp) : IORes :=
  let s0 : Mcvd := { s with clientPresent := false }
  if s0.mediaCodec && s0.codecKind = VideoCodec.vp8 then
    let s1 : Mcvd := { s0 with pendingBitstreamRecords := [] }
    StartCodecDrain fuel DrainType.forDestroy s1 ext ins outs
  else
    let r := ActualDestroy s0
    { s := r.s, evs := r.evs, ins := ins, outs := outs }

/-- OnKeyAdded: a decryption key arrived; leave waitingForKey and kick one
I/O step to retry the stalled submission. -/
def OnKeyAdded (fuel : Nat) (s : Mcvd) (ext : Ext) (ins : List InputResp)
    (outs : List OutputResp) : IORes :=
  let s1 : Mcvd :=
    if s.state = DecState.waitingForKey then { s with state := DecState.noError } else s
  DoIOTask fuel true s1 ext ins outs

/-- Output allocation modes of the VDA configuration. -/
inductive OutputMode
  | allocate
  | importMode
  deriving DecidableEq, Repr

/-- The decoder configuration consumed by the entry point: codec kind (from
the profile), coded size, output mode, encryption flag, whether the client
allows deferred completion, and the initial surface id. -/
structure VDAConfig where
  codec : VideoCodec
  width : Nat
  height : Nat
  outputMode : OutputMode
  isEncrypted : Bool
  deferredInitAllowed : Bool
  surfaceId : Int
  deriving DecidableEq, Repr

/-- External facts consulted while validating and applying a configuration:
GL callback availability, platform decoder availability, build flags and
resource-allocation outcomes. -/
structure InitExt where
  glCallbacksPresent : Bool
  isKnownUnaccelerated : Bool
  glesDecoderOk : Bool
  anyRegisteredAVDA : Bool
  lowEndOrOldSdk : Bool
  allocateSurfaceOk : Bool
  makeContextCurrent : Bool
  pbmSurfaceOk : Bool
  startThreadOk : Bool
  hevcEnabled : Bool
  vp8Available : Bool
  vp9Available : Bool
  deriving DecidableEq, Repr

/-- SurfaceManager kNoSurfaceID sentinel. -/
def kNoSurfaceID : Int := -1

/-- ShouldDeferSurfaceCreation: low-end H264 path with no surface yet. -/
def ShouldDeferSurfaceCreation (surfaceId : Int) (codec : VideoCodec)
    (ext : InitExt) : Bool :=
  surfaceId = kNoSurfaceID && codec = VideoCodec.h264 &&
  ext.anyRegisteredAVDA && ext.lowEndOrOldSdk

/-- IsMediaCodecSoftwareDecodingForbidden on a configuration: clear VP8/VP9
content prefers the sandboxed software decoders. -/
def IsSwForbiddenCfg (cfg : VDAConfig) : Bool :=
  !cfg.isEncrypted && (cfg.codec = VideoCodec.vp8 || cfg.codec = VideoCodec.vp9)

/-- ConfigSupported: the standalone capability predicate (hardware backing
for clear VP8/VP9, the 4k size ceiling, codec whitelist, the 360p floor for
clear VP8/VP9). -/
def ConfigSupported (cfg : VDAConfig) (ext : InitExt) : Bool :=
  if IsSwForbiddenCfg cfg && ext.isKnownUnaccelerated then false
  else if cfg.width > 3840 || cfg.height > 2160 then false
  else
    match cfg.codec with
    | VideoCodec.vp8 =>
        if !ext.vp8Available then false
        else if cfg.isEncrypted then true
        else if cfg.width < 480 || cfg.height < 360 then false
        else true
    | VideoCodec.vp9 =>
        if !ext.vp9Available then false
        else if cfg.isEncrypted then true
        else if cfg.width < 480 || cfg.height < 360 then false
        else true
    | VideoCodec.h264 => true
    | VideoCodec.hevc => ext.hevcEnabled
    | VideoCodec.unknownCodec => false

/-- Outcome of the entry point: its boolean return, whether asynchronous
codec construction was started, and any synchronous completion
notification. -/
structure InitRes where
  ret : Bool
  constructedCodec : Bool
  notifiedInitDone : Option Bool
  deriving DecidableEq, Repr

/-- InitializePictureBufferManager: make the GL context current, obtain the
surface, start the allocator thread, then either continue with CDM setup
(encrypted) or kick codec construction.  Returns none on the path where the
source function reaches its end without a return statement (undefined
behaviour in the source). -/
def InitPictureBufferManager (cfg : VDAConfig) (ext : InitExt)
    (deferredInitPending deferSurface : Bool) : Option (Bool × Bool) :=
  if !ext.makeContextCurrent then some (false, false)
  else if !ext.pbmSurfaceOk then some (false, false)
  else if !ext.startThreadOk then some (false, false)
  else if cfg.isEncrypted then some (true, false)
  else if deferredInitPending || deferSurface then some (true, true)
  else none

/-- InitDecoder models the decoder entry point MediaCodecVideoDecoder
Initialize: validate callbacks, output mode and codec kind, then defer the
surface, wait for the surface, or set up the picture buffer manager. -/
def InitDecoder (cfg : VDAConfig) (ext : InitExt) : Option InitRes :=
  if !ext.glCallbacksPresent then some { ret := false, constructedCodec := false, notifiedInitDone := none }
  else if cfg.outputMode ≠ OutputMode.allocate then
    some { ret := false, constructedCodec := false, notifiedInitDone := none }
  else if !(cfg.codec = VideoCodec.vp8 || cfg.codec = VideoCodec.vp9 ||
            (ext.hevcEnabled && cfg.codec = VideoCodec.hevc) ||
            cfg.codec = VideoCodec.h264) then
    some { ret := false, constructedCodec := false, notifiedInitDone := none }
  else if IsSwForbiddenCfg cfg && ext.isKnownUnaccelerated then
    some { ret := false, constructedCodec := false, notifiedInitDone := none }
  else if !ext.glesDecoderOk then
    some { ret := false, constructedCodec := false, notifiedInitDone := none }
  else if ShouldDeferSurfaceCreation cfg.surfaceId cfg.codec ext then
    some { ret := true, constructedCodec := false, notifiedInitDone := some true }
  else
    let deferredInitPending := cfg.deferredInitAllowed
    if cfg.isEncrypted && !deferredInitPending then
      some { ret := false, constructedCodec := false, notifiedInitDone := none }
    else if ext.allocateSurfaceOk then
      match InitPictureBufferManager cfg ext deferredInitPending false with
      | none => none
      | some rv => some { ret := rv.1, constructedCodec := rv.2, notifiedInitDone := none }
    else
      some { ret := true, constructedCodec := false, notifiedInitDone := none }

/-- Re-entrant requests issued by decoder instances while a timer tick is
iterating (via ManageTimer inside DoIOTask). -/
inductive TimerAct
  | actStart (i : Nat)
  | actStop (i : Nat)
  deriving DecidableEq, Repr

/-- State of the shared MCVDManager poll timer: the registered instance set,
whether a tick is iterating, the deferred erasures, and whether the
repeating timer is running. -/
structure Mgr where
  instances : List Nat
  tickInProgress : Bool
  pendingErase : List Nat
  ioTimerRunning : Bool
  deriving DecidableEq, Repr

/-- Set insertion on the instance list. -/
def InsertInst (l : List Nat) (i : Nat) : List Nat :=
  if i ∈ l then l else l ++ [i]

/-- Set erasure on the instance list. -/
def EraseInst (l : List Nat) (i : Nat) : List Nat :=
  l.filter (fun j => j ≠ i)

/-- StartTimer: register the instance, cancel a deferred erasure when a tick
is running, and start the repeating timer when it is not yet running. -/
def StartTimer (m : Mgr) (i : Nat) : Mgr :=
  let m1 : Mgr := { m with instances := InsertInst m.instances i }
  let m2 : Mgr :=
    if m1.tickInProgress then { m1 with pendingErase := EraseInst m1.pendingErase i }
    else m1
  if m2.ioTimerRunning then m2 else { m2 with ioTimerRunning := true }

/-- StopTimer: defer the erasure while a tick is iterating; otherwise erase
the instance and stop the repeating timer when none is left. -/
def StopTimer (m : Mgr) (i : Nat) : Mgr :=
  if m.tickInProgress then { m with pendingErase := InsertInst m.pendingErase i }
  else
    let m1 : Mgr := { m with instances := EraseInst m.instances i }
    if m1.instances.isEmpty then { m1 with ioTimerRunning := false } else m1

/-- Apply one re-entrant request during a tick. -/
def ApplyAct (m : Mgr) (a : TimerAct) : Mgr :=
  match a with
  | TimerAct.actStart i => StartTimer m i
  | TimerAct.actStop i => StopTimer m i

/-- The tick-iteration phase of RunTimer, with deferral active. -/
def TickPhase (m : Mgr) (acts : List TimerAct) : Mgr :=
  acts.foldl ApplyAct { m with tickInProgress := true }

/-- RunTimer: iterate the instances (the re-entrant requests they issue are
the acts), then apply the erasures deferred during the pass. -/
def RunTimer (m : Mgr) (acts : List TimerAct) : Mgr :=
  let m1 := TickPhase m acts
  let m2 : Mgr := { m1 with tickInProgress := false }
  let m3 := m2.pendingErase.foldl StopTimer m2
  { m3 with pendingErase := [] }

/-- Externally observable operations on the manager. -/
inductive MgrOp
  | extStart (i : Nat)
  | extStop (i : Nat)
  | tick (acts : List TimerAct)
  deriving DecidableEq, Repr

/-- Apply one manager operation. -/
def ApplyOp (m : Mgr) (op : MgrOp) : Mgr :=
  match op with
  | MgrOp.extStart i => StartTimer m i
  | MgrOp.extStop i => StopTimer m i
  | MgrOp.tick acts => RunTimer m acts

/-- The manager before any registration. -/
def MgrInit : Mgr :=
  { instances := [], tickInProgress := false, pendingErase := [], ioTimerRunning := false }

/-- Well-formedness between operations: no tick in flight, no deferred
erasures outstanding, and the repeating timer runs exactly when some
instance is registered. -/
def MgrWf (m : Mgr) : Prop :=
  m.tickInProgress = false ∧ m.pendingErase = [] ∧
  (m.ioTimerRunning = true ↔ m.instances ≠ [])

/-- Recall of the specification wording for output matching: the oldest
pending-map entry whose timestamp is at or before the observed one (the map
is kept sorted ascending, so this is its first entry when that entry
qualifies). -/
def OldestAtOrBefore (l : List (Int × Int)) (t : Int) : Option (Int × Int) :=
  match l.filter (fun p => p.1 ≤ t) with
  | [] => none
  | p :: _ => some p

/-- Predicate picking out picture-ready notifications. -/
def IsPictureReadyEv : Ev → Bool
  | Ev.pictureReady _ _ => true
  | _ => false

/-- Predicate picking out end-of-bitstream-buffer notifications. -/
def IsEOBBEv : Ev → Bool
  | Ev.endOfBitstreamBuffer _ => true
  | _ => false

/-- Predicate picking out error notifications. -/
def IsNotifyErrorEv : Ev → Bool
  | Ev.notifyError _ => true
  | _ => false

/-- Number of end-of-bitstream-buffer notifications for a given id. -/
def CountEOBB (evs : List Ev) (id : Int) : Nat :=
  evs.countP (fun e => e = Ev.endOfBitstreamBuffer id)

/-- Number of codec-release commands in a trace. -/
def CountRelease (evs : List Ev) : Nat :=
  evs.countP (fun e => e = Ev.releaseMediaCodec)

/-- A trace free of per-frame client notifications. -/
def NoClientFrames (evs : List Ev) : Prop :=
  ∀ e ∈ evs, IsPictureReadyEv e = false ∧ IsEOBBEv e = false

/-- Projection discarding the poll-timer bookkeeping fields. -/
def ClearTimer (s : Mcvd) : Mcvd :=
  { s with mostRecentWork := none, timerRegistered := false }

/-- A steady-state decoder used to instantiate hypotheses concretely. -/
def BaseSt : Mcvd :=
  { state := DecState.noError
    pendingBitstreamRecords := []
    bitstreamBuffersInDecoder := []
    bitstreamsNotifiedInAdvance := []
    pendingInputBufIndex := -1
    drainType := DrainType.noDrain
    codecNeedsReset := false
    deferSurfaceCreation := false
    mediaCodec := true
    codecKind := VideoCodec.h264
    isEncrypted := false
    freePictureIds := []
    outputPictureBuffers := []
    pendingSurfaceId := none
    surfaceId := 0
    outputSize := (640, 480)
    codecInputBuffers := []
    deferredInitPending := false
    clientPresent := true
    mostRecentWork := none
    timerRegistered := false }

/-- A benign environment used to instantiate hypotheses concretely. -/
def BaseExt : Ext :=
  { now := 0
    makeContextCurrent := true
    shmMapOk := true
    codecNeedsFlushWorkaround := false
    taskType := TaskType.autoCodec
    useCodecBufferOk := true
    hasUnrenderedPictures := false
    allocateSurfaceOk := true
    pbmInitSurfaceOk := true
    setSurfaceOk := true }

/-- An exact-key hit in the pending map yields a member of the map. -/
theorem MapFind_mem {l : List (Int × Int)} {k v : Int}
    (h : MapFind l k = some v) : (k, v) ∈ l := by
  induction l with
  | nil => simp [MapFind] at h
  | cons a rest ih =>
    rcases a with ⟨a1, a2⟩
    by_cases ha : a1 = k
    · subst ha
      simp [MapFind] at h
      simp [h]
    · simp [MapFind, ha] at h
      exact List.mem_cons_of_mem _ (ih h)

/-- On a sorted map a successful exact-key erase-through removes precisely
the entries with keys at or below the matched key. -/
theorem EraseThroughKey_sorted {l : List (Int × Int)} {k v : Int}
    (hs : l.Pairwise (fun a b => a.1 < b.1)) (h : MapFind l k = some v) :
    EraseThroughKey l k = l.filter (fun p => decide (k < p.1)) := by
  induction l with
  | nil => simp [MapFind] at h
  | cons a rest ih =>
    rcases List.pairwise_cons.mp hs with ⟨hall, htail⟩
    by_cases ha : a.1 = k
    · have hlt : ∀ p ∈ rest, decide (k < p.1) = true := by
        intro p hp
        simpa using ha ▸ hall p hp
      have hnk : decide (k < a.1) = false := by simp [ha]
      simp [EraseThroughKey, ha, hnk, List.filter_eq_self.mpr hlt]
    · simp only [MapFind, if_neg ha] at h
      have hmem : (k, v) ∈ rest := MapFind_mem h
      have hak : a.1 < k := by simpa using hall _ hmem
      have hnk : decide (k < a.1) = false := by
        simp
        omega
      simp [EraseThroughKey, ha, hnk, ih htail h]

/-- C10: every dequeued output frame whose presentation timestamp has no
matching entry in the pending timestamp map is released back to the codec
unrendered: no picture ready is emitted, no picture buffer is checked out,
no error is reported, and all decoder state fields are left unchanged. -/
theorem C10_unmatched_output_released (s : Mcvd) (ext : Ext) (idx pts : Int)
    (rest : List OutputResp)
    (hstate : s.state = DecState.noError)
    (hdr : IsDrainingForResetOrDestroy s = false)
    (hps : s.pendingSurfaceId = none)
    (hstall : s.outputPictureBuffers.isEmpty = true ∨ s.freePictureIds.isEmpty = false)
    (hfind : MapFind s.bitstreamBuffersInDecoder pts = none) :
    DequeueOutput s ext (OutputResp.okBuf idx pts false :: rest) =
      { s := s, did := true, evs := [Ev.releaseOutputBuffer idx false], outs := rest } := by
  rcases hstall with h | h <;>
    simp [DequeueOutput, hstate, hps, DequeueLoop, hdr, hfind, h]

/-- Witness for C10 at a concrete state: one pending entry at timestamp 5,
an output arriving at the unmatched timestamp 7. -/
theorem C10_unmatched_output_released_witness :
    DequeueOutput { BaseSt with bitstreamBuffersInDecoder := [(5, 100)] } BaseExt
      [OutputResp.okBuf 3 7 false] =
      { s := { BaseSt with bitstreamBuffersInDecoder := [(5, 100)] }, did := true,
        evs := [Ev.releaseOutputBuffer 3 false], outs := [] } :=
  C10_unmatched_output_released _ BaseExt 3 7 [] rfl rfl rfl (Or.inl rfl) rfl

/-- A decoder whose advance-notification list is exactly at the limit of 32,
with one data record queued. -/
def C7St : Mcvd := { BaseSt with
  bitstreamsNotifiedInAdvance := (List.range 32).map Int.ofNat
  pendingBitstreamRecords :=
    [{ id := 77, size := 4, payload := 9, pts := 40, keyId := [], iv := [] }] }

/-- C7 counterexample: with the advance-notification count exactly at the
configured limit (32), QueueInput still submits the next input, so the
count reaches 33 and exceeds the limit; the refusal only triggers strictly
above the limit. -/
theorem C7_counterexample :
    C7St.bitstreamsNotifiedInAdvance.length = kMaxBitstreamsNotifiedInAdvance ∧
    (QueueInput C7St BaseExt
      [{ dequeue := DequeueInputResult.okIndex 0,
         queueStatus := QueueInputStatus.ok }]).did = true ∧
    (QueueInput C7St BaseExt
      [{ dequeue := DequeueInputResult.okIndex 0,
         queueStatus := QueueInputStatus.ok }]).s.bitstreamsNotifiedInAdvance.length =
      kMaxBitstreamsNotifiedInAdvance + 1 := by decide

/-- QueueInputWithIndex grows the advance-notification list by at most one
entry. -/
theorem QueueInputWithIndex_notified_len (s : Mcvd) (ext : Ext)
    (front : BitstreamRecord) (rest : List BitstreamRecord) (idx : Int)
    (fresh : Bool) (q : QueueInputStatus) (insRest : List InputResp) :
    (QueueInputWithIndex s ext front rest idx fresh q insRest).s.bitstreamsNotifiedInAdvance.length ≤
      s.bitstreamsNotifiedInAdvance.length + 1 := by
  unfold QueueInputWithIndex
  split
  · simp
  · split
    · simp [NotifyError]
    · cases q <;> simp [NotifyError] <;> split <;> simp

/-- C7 corrected: QueueInput refuses further submissions only when the
advance-notification count already exceeds 32, so the count is bounded by
33 (one past the configured limit), not by 32. -/
theorem C7_backpressure_amended (s : Mcvd) (ext : Ext) (ins : List InputResp) :
    (QueueInput s ext ins).s.bitstreamsNotifiedInAdvance.length ≤
      max s.bitstreamsNotifiedInAdvance.length (kMaxBitstreamsNotifiedInAdvance + 1) ∧
    (s.bitstreamsNotifiedInAdvance.length > kMaxBitstreamsNotifiedInAdvance →
      QueueInput s ext ins = { s := s, did := false, evs := [], ins := ins }) := by
  constructor
  · unfold QueueInput
    split
    · exact le_max_left _ _
    · split
      · exact le_max_left _ _
      · rename_i h32
        have hstep : ∀ front rest idx fresh q insRest,
            (QueueInputWithIndex s ext front rest idx fresh q insRest).s.bitstreamsNotifiedInAdvance.length ≤
              max s.bitstreamsNotifiedInAdvance.length (kMaxBitstreamsNotifiedInAdvance + 1) := by
          intro front rest idx fresh q insRest
          refine le_trans (QueueInputWithIndex_notified_len s ext front rest idx fresh q insRest) ?_
          refine le_trans ?_ (le_max_right _ _)
          omega
        split
        · exact le_max_left _ _
        · split
          · exact le_max_left _ _
          · split
            · split
              · exact le_max_left _ _
              · simp only [NotifyError]
                exact le_max_left _ _
              · exact hstep _ _ _ _ _ _
            · exact hstep _ _ _ _ _ _
  · intro h
    simp [QueueInput, h]

/-- Witness for the amended C7 statement at a concrete over-limit state. -/
theorem C7_backpressure_amended_witness :
    (QueueInput { BaseSt with bitstreamsNotifiedInAdvance := (List.range 33).map Int.ofNat }
        BaseExt []).s.bitstreamsNotifiedInAdvance.length ≤
      max ((List.range 33).map Int.ofNat).length (kMaxBitstreamsNotifiedInAdvance + 1) ∧
    QueueInput { BaseSt with bitstreamsNotifiedInAdvance := (List.range 33).map Int.ofNat }
        BaseExt [] =
      { s := { BaseSt with bitstreamsNotifiedInAdvance := (List.range 33).map Int.ofNat },
        did := false, evs := [], ins := [] } := by
  have h := C7_backpressure_amended
    { BaseSt with bitstreamsNotifiedInAdvance := (List.range 33).map Int.ofNat } BaseExt []
  exact ⟨h.1, h.2 (by decide)⟩

/-- A decoder with two pending map entries (timestamps 5 and 10), one free
picture buffer, and an output arriving at timestamp 10. -/
def C6St : Mcvd := { BaseSt with
  bitstreamBuffersInDecoder := [(5, 100), (10, 200)]
  freePictureIds := [1]
  outputPictureBuffers := [(1, (640, 480))]
  bitstreamsNotifiedInAdvance := [100, 200] }

/-- C6 counterexample: the oldest map entry at or before the observed
timestamp 10 carries bitstream id 100, but the decoder reports the frame
with id 200 (the entry exactly at timestamp 10) and removes both entries —
matching is by exact timestamp, not by consuming the oldest entry at or
before it. -/
theorem C6_counterexample :
    OldestAtOrBefore C6St.bitstreamBuffersInDecoder 10 = some (5, 100) ∧
    (DequeueOutput C6St BaseExt [OutputResp.okBuf 3 10 false]).evs =
      [Ev.pictureReady 1 200] ∧
    (DequeueOutput C6St BaseExt [OutputResp.okBuf 3 10 false]).s.bitstreamBuffersInDecoder =
      [] ∧
    (200 : Int) ≠ 100 := by decide

/-- C6 corrected: a ready output dequeued at timestamp t while not draining
for reset or destroy is matched by exact lookup of t in the pending
timestamp map; on a hit every entry with key at or below t is removed (none
re-inserted) and the frame is reported with the bitstream id stored at key
t. -/
theorem C6_exact_match_amended (s : Mcvd) (ext : Ext) (idx pts bid pid : Int)
    (restFree : List Int) (pbsz : Nat × Nat) (rest : List OutputResp)
    (hstate : s.state = DecState.noError)
    (hdr : IsDrainingForResetOrDestroy s = false)
    (hps : s.pendingSurfaceId = none)
    (hsort : s.bitstreamBuffersInDecoder.Pairwise (fun a b => a.1 < b.1))
    (hfind : MapFind s.bitstreamBuffersInDecoder pts = some bid)
    (hfree : s.freePictureIds = pid :: restFree)
    (hpb : PbFind s.outputPictureBuffers pid = some pbsz)
    (hctx : ext.makeContextCurrent = true)
    (huse : ext.useCodecBufferOk = true) :
    (DequeueOutput s ext (OutputResp.okBuf idx pts false :: rest)).s.bitstreamBuffersInDecoder =
      s.bitstreamBuffersInDecoder.filter (fun p => decide (pts < p.1)) ∧
    (DequeueOutput s ext (OutputResp.okBuf idx pts false :: rest)).evs =
      [Ev.pictureReady pid bid] := by
  have herase := EraseThroughKey_sorted hsort hfind
  simp [DequeueOutput, DequeueLoop, SendDecodedFrameToClient, hstate, hps, hdr,
    hfind, hfree, hpb, hctx, huse, herase]
  split <;> rfl

/-- Witness for the amended C6 statement at the concrete two-entry state. -/
theorem C6_exact_match_amended_witness :
    (DequeueOutput C6St BaseExt [OutputResp.okBuf 3 10 false]).s.bitstreamBuffersInDecoder =
      C6St.bitstreamBuffersInDecoder.filter (fun p => decide ((10 : Int) < p.1)) ∧
    (DequeueOutput C6St BaseExt [OutputResp.okBuf 3 10 false]).evs =
      [Ev.pictureReady 1 200] :=
  C6_exact_match_amended C6St BaseExt 3 10 200 1 [] (640, 480) [] rfl rfl rfl
    (by decide) rfl rfl rfl rfl rfl

/-- A decoder holding an H264 codec with one input still inside it. -/
def C5St : Mcvd := { BaseSt with bitstreamBuffersInDecoder := [(0, 5)] }

/-- C5 counterexample: with inputs still outstanding inside the codec but a
non-VP8 codec kind, Destroy tears the resource down immediately — no
drain-for-destroy is performed, so teardown is not deferred behind a
drain whenever inputs are outstanding. -/
theorem C5_counterexample :
    C5St.bitstreamBuffersInDecoder ≠ [] ∧
    (Destroy 1 C5St BaseExt [] []).evs =
      [Ev.releaseMediaCodec, Ev.actualDestroyDone] ∧
    (Destroy 1 C5St BaseExt [] []).s.drainType = DrainType.noDrain := by decide

/-- C5 corrected: Destroy performs a drain-for-destroy exactly when a codec
is live and its kind is VP8 (the codecs requiring a full drain before
release), regardless of whether inputs are outstanding; otherwise it tears
down immediately.  In the drain case teardown is deferred until the drain
completes (the end-of-stream output), and across the whole sequence the
codec resource is released exactly once. -/
theorem C5_destroy_amended (s : Mcvd) (ext : Ext) (idx : Int) (q : QueueInputStatus)
    (hstate : s.state = DecState.noError)
    (hdrain : s.drainType = DrainType.noDrain)
    (hpend : s.pendingInputBufIndex = -1)
    (hnot : s.bitstreamsNotifiedInAdvance.length ≤ kMaxBitstreamsNotifiedInAdvance)
    (hps : s.pendingSurfaceId = none)
    (hwork : ext.codecNeedsFlushWorkaround = false) :
    ((s.mediaCodec = false ∨ s.codecKind ≠ VideoCodec.vp8) →
      (Destroy 1 s ext [] []).evs =
        (if s.mediaCodec then [Ev.releaseMediaCodec] else []) ++ [Ev.actualDestroyDone] ∧
      (Destroy 1 s ext [] []).s.mediaCodec = false) ∧
    (s.mediaCodec = true → s.codecKind = VideoCodec.vp8 →
      (Destroy 2 s ext [{ dequeue := DequeueInputResult.okIndex idx, queueStatus := q }]
          [OutputResp.againLater]).s.drainType = DrainType.forDestroy ∧
      (Destroy 2 s ext [{ dequeue := DequeueInputResult.okIndex idx, queueStatus := q }]
          [OutputResp.againLater]).evs = [Ev.queueEOS idx] ∧
      (DoIOTask 2 false
          (Destroy 2 s ext [{ dequeue := DequeueInputResult.okIndex idx, queueStatus := q }]
            [OutputResp.againLater]).s ext [] [OutputResp.okBuf 0 0 true]).evs =
        [Ev.codecFlush, Ev.postActualDestroy] ∧
      (ActualDestroy
          (DoIOTask 2 false
            (Destroy 2 s ext [{ dequeue := DequeueInputResult.okIndex idx, queueStatus := q }]
              [OutputResp.againLater]).s ext [] [OutputResp.okBuf 0 0 true]).s).evs =
        [Ev.releaseMediaCodec, Ev.actualDestroyDone] ∧
      CountRelease
        ((Destroy 2 s ext [{ dequeue := DequeueInputResult.okIndex idx, queueStatus := q }]
            [OutputResp.againLater]).evs ++
          (DoIOTask 2 false
            (Destroy 2 s ext [{ dequeue := DequeueInputResult.okIndex idx, queueStatus := q }]
              [OutputResp.againLater]).s ext [] [OutputResp.okBuf 0 0 true]).evs ++
          (ActualDestroy
            (DoIOTask 2 false
              (Destroy 2 s ext [{ dequeue := DequeueInputResult.okIndex idx, queueStatus := q }]
                [OutputResp.againLater]).s ext [] [OutputResp.okBuf 0 0 true]).s).evs) = 1) := by
  have h32 : ¬(s.bitstreamsNotifiedInAdvance.length > kMaxBitstreamsNotifiedInAdvance) := by
    omega
  constructor
  · intro hcase
    have hvp : (s.mediaCodec && s.codecKind = VideoCodec.vp8) = false := by
      rcases hcase with h | h <;> simp [h]
    constructor <;>
      simp [Destroy, ActualDestroy, hvp] <;> split <;> simp_all
  · intro hmc hvp8
    have hdestroy : Destroy 2 s ext
        [{ dequeue := DequeueInputResult.okIndex idx, queueStatus := q }]
        [OutputResp.againLater] =
        { s := { s with
            pendingBitstreamRecords := []
            drainType := DrainType.forDestroy
            clientPresent := false
            mostRecentWork := some ext.now
            timerRegistered := true },
          evs := [Ev.queueEOS idx], ins := [], outs := [] } := by
      simp [Destroy, StartCodecDrain, DecodeBuffer, DoIOTask, IoLoop, QueueInput,
        QueueInputWithIndex, DequeueOutput, DequeueLoop, ManageTimer,
        IsDrainingForResetOrDestroy, EosRecord, hstate, hpend, hps, hmc, hvp8, h32, hdrain]
    have hio : DoIOTask 2 false
        { s with
          pendingBitstreamRecords := []
          drainType := DrainType.forDestroy
          clientPresent := false
          mostRecentWork := some ext.now
          timerRegistered := true } ext [] [OutputResp.okBuf 0 0 true] =
        { s := { s with
            pendingBitstreamRecords := []
            bitstreamBuffersInDecoder := []
            pendingInputBufIndex := -1
            state := DecState.noError
            codecNeedsReset := false
            drainType := DrainType.noDrain
            clientPresent := false
            mostRecentWork := some ext.now
            timerRegistered := true },
          evs := [Ev.codecFlush, Ev.postActualDestroy], ins := [], outs := [] } := by
      simp [DoIOTask, IoLoop, QueueInput, DequeueOutput, DequeueLoop, OnDrainCompleted,
        ResetCodecState, ManageTimer, IsDrainingForResetOrDestroy, IdleTimerTimeOut,
        hstate, hwork, hps]
    rw [hdestroy]
    simp only
    rw [hio]
    simp only
    have hact : ActualDestroy
        { s with
          pendingBitstreamRecords := []
          bitstreamBuffersInDecoder := []
          pendingInputBufIndex := -1
          state := DecState.noError
          codecNeedsReset := false
          drainType := DrainType.noDrain
          clientPresent := false
          mostRecentWork := some ext.now
          timerRegistered := true } =
        { s := { s with
            pendingBitstreamRecords := []
            bitstreamBuffersInDecoder := []
            pendingInputBufIndex := -1
            state := DecState.noError
            codecNeedsReset := false
            drainType := DrainType.noDrain
            clientPresent := false
            mostRecentWork := some ext.now
            timerRegistered := false
            mediaCodec := false },
          evs := [Ev.releaseMediaCodec, Ev.actualDestroyDone] } := by
      simp [ActualDestroy, hmc]
    rw [hact]
    simp [CountRelease]

/-- Witness for the amended C5 statement: a live VP8 codec defers teardown
behind a drain-for-destroy. -/
theorem C5_destroy_amended_witness :
    (Destroy 2 { BaseSt with codecKind := VideoCodec.vp8 } BaseExt
        [{ dequeue := DequeueInputResult.okIndex 4, queueStatus := QueueInputStatus.ok }]
        [OutputResp.againLater]).s.drainType = DrainType.forDestroy :=
  ((C5_destroy_amended { BaseSt with codecKind := VideoCodec.vp8 } BaseExt 4
      QueueInputStatus.ok rfl rfl rfl (by decide) rfl rfl).2 rfl rfl).1

/-- Writing a codec input buffer and reading the same index back yields the
written payload. -/
theorem BufFind_BufSet (l : List (Int × Nat)) (k : Int) (v : Nat) :
    BufFind (BufSet l k v) k = some v := by
  induction l with
  | nil => simp [BufSet, BufFind]
  | cons p rest ih =>
    by_cases hp : p.1 = k
    · simp [BufSet, BufFind, hp]
    · simp [BufSet, BufFind, hp, ih]

/-- C1: a submission that returns no-key leaves the record at the head of
the pending queue (not popped), retains the dequeued codec input-buffer
index, enters waitingForKey, and leaves the payload in the codec input
buffer; the next key-arrival notification transitions back to noError and
re-runs the I/O step, which resubmits the identical buffer — the same input
buffer index with the originally written payload still in place and no new
memory mapped — and only then pops the record. -/
theorem C1_noKey_retry (s : Mcvd) (ext : Ext) (idx : Int)
    (front : BitstreamRecord) (rest : List BitstreamRecord)
    (q2resp : DequeueInputResult)
    (hstate : s.state = DecState.noError)
    (hq : s.pendingBitstreamRecords = front :: rest)
    (hid : front.id ≠ -1)
    (hidx : idx ≠ -1)
    (hpend : s.pendingInputBufIndex = -1)
    (hnot : s.bitstreamsNotifiedInAdvance.length ≤ kMaxBitstreamsNotifiedInAdvance)
    (hps : s.pendingSurfaceId = none)
    (hshm : ext.shmMapOk = true) :
    (QueueInput s ext
      [{ dequeue := DequeueInputResult.okIndex idx,
         queueStatus := QueueInputStatus.noKey }]).did = false ∧
    (QueueInput s ext
      [{ dequeue := DequeueInputResult.okIndex idx,
         queueStatus := QueueInputStatus.noKey }]).s.pendingBitstreamRecords = front :: rest ∧
    (QueueInput s ext
      [{ dequeue := DequeueInputResult.okIndex idx,
         queueStatus := QueueInputStatus.noKey }]).s.pendingInputBufIndex = idx ∧
    (QueueInput s ext
      [{ dequeue := DequeueInputResult.okIndex idx,
         queueStatus := QueueInputStatus.noKey }]).s.state = DecState.waitingForKey ∧
    BufFind (QueueInput s ext
      [{ dequeue := DequeueInputResult.okIndex idx,
         queueStatus := QueueInputStatus.noKey }]).s.codecInputBuffers idx =
      some front.payload ∧
    (OnKeyAdded 1 (QueueInput s ext
        [{ dequeue := DequeueInputResult.okIndex idx,
           queueStatus := QueueInputStatus.noKey }]).s ext
      [{ dequeue := q2resp, queueStatus := QueueInputStatus.ok }] []).s.state =
      DecState.noError ∧
    (OnKeyAdded 1 (QueueInput s ext
        [{ dequeue := DequeueInputResult.okIndex idx,
           queueStatus := QueueInputStatus.noKey }]).s ext
      [{ dequeue := q2resp, queueStatus := QueueInputStatus.ok }] []).evs =
      [Ev.submitInput idx none front.size front.pts
         (!(front.keyId.isEmpty || front.iv.isEmpty)),
       Ev.endOfBitstreamBuffer front.id] ∧
    (OnKeyAdded 1 (QueueInput s ext
        [{ dequeue := DequeueInputResult.okIndex idx,
           queueStatus := QueueInputStatus.noKey }]).s ext
      [{ dequeue := q2resp, queueStatus := QueueInputStatus.ok }] []).s.pendingBitstreamRecords =
      rest ∧
    (OnKeyAdded 1 (QueueInput s ext
        [{ dequeue := DequeueInputResult.okIndex idx,
           queueStatus := QueueInputStatus.noKey }]).s ext
      [{ dequeue := q2resp, queueStatus := QueueInputStatus.ok }] []).s.pendingInputBufIndex =
      -1 ∧
    BufFind (OnKeyAdded 1 (QueueInput s ext
        [{ dequeue := DequeueInputResult.okIndex idx,
           queueStatus := QueueInputStatus.noKey }]).s ext
      [{ dequeue := q2resp, queueStatus := QueueInputStatus.ok }] []).s.codecInputBuffers idx =
      some front.payload := by
  have h32 : ¬(s.bitstreamsNotifiedInAdvance.length > kMaxBitstreamsNotifiedInAdvance) := by
    omega
  have h1 : QueueInput s ext
      [{ dequeue := DequeueInputResult.okIndex idx,
         queueStatus := QueueInputStatus.noKey }] =
      { s := { s with
          codecInputBuffers := BufSet s.codecInputBuffers idx front.payload
          bitstreamBuffersInDecoder := MapInsert s.bitstreamBuffersInDecoder front.pts front.id
          pendingInputBufIndex := idx
          state := DecState.waitingForKey },
        did := false,
        evs := [Ev.submitInput idx (some front.payload) front.size front.pts
                  (!(front.keyId.isEmpty || front.iv.isEmpty))],
        ins := [] } := by
    simp [QueueInput, QueueInputWithIndex, hstate, hq, hid, hpend, hshm, h32]
  rw [h1]
  have h2 : OnKeyAdded 1
      { s with
        codecInputBuffers := BufSet s.codecInputBuffers idx front.payload
        bitstreamBuffersInDecoder := MapInsert s.bitstreamBuffersInDecoder front.pts front.id
        pendingInputBufIndex := idx
        state := DecState.waitingForKey } ext
      [{ dequeue := q2resp, queueStatus := QueueInputStatus.ok }] [] =
      { s := { s with
          codecInputBuffers := BufSet s.codecInputBuffers idx front.payload
          bitstreamBuffersInDecoder :=
            MapInsert (MapInsert s.bitstreamBuffersInDecoder front.pts front.id)
              front.pts front.id
          pendingInputBufIndex := -1
          state := DecState.noError
          pendingBitstreamRecords := rest
          bitstreamsNotifiedInAdvance := s.bitstreamsNotifiedInAdvance ++ [front.id]
          mostRecentWork := some ext.now
          timerRegistered := true },
        evs := [Ev.submitInput idx none front.size front.pts
                  (!(front.keyId.isEmpty || front.iv.isEmpty)),
                Ev.endOfBitstreamBuffer front.id],
        ins := [], outs := [] } := by
    simp [OnKeyAdded, DoIOTask, IoLoop, QueueInput, QueueInputWithIndex, DequeueOutput,
      DequeueLoop, ManageTimer, hq, hid, hidx, hps, h32]
  rw [h2]
  refine ⟨rfl, hq, rfl, rfl, BufFind_BufSet _ _ _, rfl, rfl, rfl, rfl,
    BufFind_BufSet _ _ _⟩

/-- A concrete encrypted input record for the C1 witness. -/
def C1Rec : BitstreamRecord :=
  { id := 7, size := 3, payload := 42, pts := 1000, keyId := [1], iv := [2] }

/-- Witness for C1: after no-key and key arrival, the retried submission
reuses input-buffer index 5 with no new memory mapped, then consumes the
record. -/
theorem C1_noKey_retry_witness :
    (OnKeyAdded 1
      (QueueInput { BaseSt with pendingBitstreamRecords := [C1Rec] } BaseExt
        [{ dequeue := DequeueInputResult.okIndex 5,
           queueStatus := QueueInputStatus.noKey }]).s BaseExt
      [{ dequeue := DequeueInputResult.againLater,
         queueStatus := QueueInputStatus.ok }] []).evs =
      [Ev.submitInput 5 none C1Rec.size C1Rec.pts
         (!(C1Rec.keyId.isEmpty || C1Rec.iv.isEmpty)),
       Ev.endOfBitstreamBuffer C1Rec.id] :=
  (C1_noKey_retry { BaseSt with pendingBitstreamRecords := [C1Rec] } BaseExt 5 C1Rec []
    DequeueInputResult.againLater rfl rfl (by decide) (by decide) rfl (by decide)
    rfl rfl).2.2.2.2.2.2.1

/-- With only try-again input responses and no pending no-key retry outside
waitingForKey, QueueInput changes nothing, makes no progress, and emits
nothing. -/
theorem QueueInput_noprogress (s : Mcvd) (ext : Ext) (ins : List InputResp)
    (hpend : s.pendingInputBufIndex ≠ -1 → s.state = DecState.waitingForKey)
    (hins : ∀ r ∈ ins, r.dequeue = DequeueInputResult.againLater) :
    (QueueInput s ext ins).s = s ∧ (QueueInput s ext ins).did = false ∧
    (QueueInput s ext ins).evs = [] ∧
    ∀ r ∈ (QueueInput s ext ins).ins, r.dequeue = DequeueInputResult.againLater := by
  rcases hqcase : s.pendingBitstreamRecords with _ | ⟨front, rest⟩
  · unfold QueueInput
    rw [hqcase]
    split
    · exact ⟨rfl, rfl, rfl, hins⟩
    split
    · exact ⟨rfl, rfl, rfl, hins⟩
    · exact ⟨rfl, rfl, rfl, hins⟩
  · cases ins with
    | nil =>
      unfold QueueInput
      rw [hqcase]
      split
      · exact ⟨rfl, rfl, rfl, by simp⟩
      split
      · exact ⟨rfl, rfl, rfl, by simp⟩
      · exact ⟨rfl, rfl, rfl, by simp⟩
    | cons resp insRest =>
      have hd : resp.dequeue = DequeueInputResult.againLater :=
        hins resp (List.mem_cons_self _ _)
      have htl : ∀ r ∈ insRest, r.dequeue = DequeueInputResult.againLater :=
        fun r hr => hins r (List.mem_cons_of_mem _ hr)
      unfold QueueInput
      rw [hqcase]
      split
      · exact ⟨rfl, rfl, rfl, hins⟩
      split
      · exact ⟨rfl, rfl, rfl, hins⟩
      split
      · rename_i heq
        exact absurd heq (List.cons_ne_nil _ _)
      rename_i front2 rest2 heq
      split
      · rename_i heq2
        exact absurd heq2 (List.cons_ne_nil _ _)
      rename_i resp2 insRest2 heq2
      injection heq2 with h1 h2
      subst h1
      subst h2
      split
      · rw [hd]
        exact ⟨rfl, rfl, rfl, htl⟩
      · exfalso
        have hwfk := hpend (by assumption)
        simp_all

/-- With only try-again output responses and no surface switch pending,
DequeueOutput changes nothing, makes no progress, and emits nothing. -/
theorem DequeueOutput_noprogress (s : Mcvd) (ext : Ext) (outs : List OutputResp)
    (hps : s.pendingSurfaceId = none)
    (houts : ∀ r ∈ outs, r = OutputResp.againLater) :
    (DequeueOutput s ext outs).s = s ∧ (DequeueOutput s ext outs).did = false ∧
    (DequeueOutput s ext outs).evs = [] ∧
    ∀ r ∈ (DequeueOutput s ext outs).outs, r = OutputResp.againLater := by
  unfold DequeueOutput
  split
  · exact ⟨rfl, rfl, rfl, houts⟩
  split
  · exact ⟨rfl, rfl, rfl, houts⟩
  split
  · rename_i hsome
    exfalso
    simp [hps] at hsome
  · cases outs with
    | nil => simp [DequeueLoop]
    | cons r tl =>
      have hr : r = OutputResp.againLater := houts r (List.mem_cons_self _ _)
      subst hr
      simp [DequeueLoop]
      exact fun x hx => houts x (List.mem_cons_of_mem _ hx)

/-- With try-again responses in both directions, one DoIOTask run leaves
every non-timer field unchanged and emits nothing, and its residual oracle
responses are again all try-again. -/
theorem DoIOTask_noprogress (f : Nat) (s : Mcvd) (ext : Ext)
    (ins : List InputResp) (outs : List OutputResp)
    (hps : s.pendingSurfaceId = none)
    (hpend : s.pendingInputBufIndex ≠ -1 → s.state = DecState.waitingForKey)
    (hins : ∀ r ∈ ins, r.dequeue = DequeueInputResult.againLater)
    (houts : ∀ r ∈ outs, r = OutputResp.againLater) :
    ClearTimer (DoIOTask f false s ext ins outs).s = ClearTimer s ∧
    (DoIOTask f false s ext ins outs).evs = [] ∧
    (DoIOTask f false s ext ins outs).s.pendingSurfaceId = none ∧
    ((DoIOTask f false s ext ins outs).s.pendingInputBufIndex ≠ -1 →
      (DoIOTask f false s ext ins outs).s.state = DecState.waitingForKey) ∧
    (∀ r ∈ (DoIOTask f false s ext ins outs).ins,
      r.dequeue = DequeueInputResult.againLater) ∧
    (∀ r ∈ (DoIOTask f false s ext ins outs).outs, r = OutputResp.againLater) := by
  unfold DoIOTask
  split
  · exact ⟨rfl, rfl, hps, hpend, hins, houts⟩
  · cases f with
    | zero =>
      exact ⟨rfl, rfl, hps, hpend, hins, houts⟩
    | succ n =>
      obtain ⟨hqs, hqd, hqe, hqi⟩ := QueueInput_noprogress s ext ins hpend hins
      obtain ⟨hds, hdd, hde, hdo⟩ :=
        DequeueOutput_noprogress (QueueInput s ext ins).s ext outs
          (by rw [hqs]; exact hps) houts
      have hds2 : (DequeueOutput (QueueInput s ext ins).s ext outs).s = s := by
        rw [hds, hqs]
      simp only [IoLoop, hqd, hdd, Bool.or_self, Bool.false_or, if_false]
      rw [hqe, hde, hds2]
      exact ⟨rfl, rfl, hps, hpend, hqi, hdo⟩

/-- C3: invoking the I/O step twice with the codec reporting try-again in
both directions mutates none of the decoder state fields (queues, timestamp
map, picture-buffer pool, state enum — everything but the poll-timer
bookkeeping) and emits no client notification, on either run. -/
theorem C3_io_idempotent (s : Mcvd) (ext : Ext) (f1 f2 : Nat)
    (q1 q2 : QueueInputStatus)
    (hps : s.pendingSurfaceId = none)
    (hpend : s.pendingInputBufIndex ≠ -1 → s.state = DecState.waitingForKey) :
    ClearTimer (DoIOTask f1 false s ext
      [{ dequeue := DequeueInputResult.againLater, queueStatus := q1 },
       { dequeue := DequeueInputResult.againLater, queueStatus := q2 }]
      [OutputResp.againLater, OutputResp.againLater]).s = ClearTimer s ∧
    (DoIOTask f1 false s ext
      [{ dequeue := DequeueInputResult.againLater, queueStatus := q1 },
       { dequeue := DequeueInputResult.againLater, queueStatus := q2 }]
      [OutputResp.againLater, OutputResp.againLater]).evs = [] ∧
    ClearTimer (DoIOTask f2 false
      (DoIOTask f1 false s ext
        [{ dequeue := DequeueInputResult.againLater, queueStatus := q1 },
         { dequeue := DequeueInputResult.againLater, queueStatus := q2 }]
        [OutputResp.againLater, OutputResp.againLater]).s ext
      (DoIOTask f1 false s ext
        [{ dequeue := DequeueInputResult.againLater, queueStatus := q1 },
         { dequeue := DequeueInputResult.againLater, queueStatus := q2 }]
        [OutputResp.againLater, OutputResp.againLater]).ins
      (DoIOTask f1 false s ext
        [{ dequeue := DequeueInputResult.againLater, queueStatus := q1 },
         { dequeue := DequeueInputResult.againLater, queueStatus := q2 }]
        [OutputResp.againLater, OutputResp.againLater]).outs).s = ClearTimer s ∧
    (DoIOTask f2 false
      (DoIOTask f1 false s ext
        [{ dequeue := DequeueInputResult.againLater, queueStatus := q1 },
         { dequeue := DequeueInputResult.againLater, queueStatus := q2 }]
        [OutputResp.againLater, OutputResp.againLater]).s ext
      (DoIOTask f1 false s ext
        [{ dequeue := DequeueInputResult.againLater, queueStatus := q1 },
         { dequeue := DequeueInputResult.againLater, queueStatus := q2 }]
        [OutputResp.againLater, OutputResp.againLater]).ins
      (DoIOTask f1 false s ext
        [{ dequeue := DequeueInputResult.againLater, queueStatus := q1 },
         { dequeue := DequeueInputResult.againLater, queueStatus := q2 }]
        [OutputResp.againLater, OutputResp.againLater]).outs).evs = [] := by
  obtain ⟨h1a, h1b, h1c, h1d, h1e, h1f⟩ :=
    DoIOTask_noprogress f1 s ext
      [{ dequeue := DequeueInputResult.againLater, queueStatus := q1 },
       { dequeue := DequeueInputResult.againLater, queueStatus := q2 }]
      [OutputResp.againLater, OutputResp.againLater] hps hpend
      (by simp) (by simp)
  obtain ⟨h2a, h2b, _, _, _, _⟩ :=
    DoIOTask_noprogress f2 _ ext _ _ h1c h1d h1e h1f
  exact ⟨h1a, h1b, h2a.trans h1a, h2b⟩

/-- Witness for C3 at the steady base state with fuel one on both runs. -/
theorem C3_io_idempotent_witness :
    ClearTimer (DoIOTask 1 false BaseSt BaseExt
      [{ dequeue := DequeueInputResult.againLater, queueStatus := QueueInputStatus.ok },
       { dequeue := DequeueInputResult.againLater, queueStatus := QueueInputStatus.ok }]
      [OutputResp.againLater, OutputResp.againLater]).s = ClearTimer BaseSt ∧
    (DoIOTask 1 false BaseSt BaseExt
      [{ dequeue := DequeueInputResult.againLater, queueStatus := QueueInputStatus.ok },
       { dequeue := DequeueInputResult.againLater, queueStatus := QueueInputStatus.ok }]
      [OutputResp.againLater, OutputResp.againLater]).evs = [] :=
  ⟨(C3_io_idempotent BaseSt BaseExt 1 1 QueueInputStatus.ok QueueInputStatus.ok rfl
      (by intro h; exact absurd rfl h)).1,
   (C3_io_idempotent BaseSt BaseExt 1 1 QueueInputStatus.ok QueueInputStatus.ok rfl
      (by intro h; exact absurd rfl h)).2.1⟩

/-- C4: a codec-resource error observed while draining for reset or destroy
is not surfaced as an error notification; the drain is treated as completed
(the drain intent is cleared) and the matching completion path still runs —
reset-done is posted for a reset drain, the actual-destroy task for a
destroy drain. -/
theorem C4_drain_error_swallowed (s : Mcvd) (ext : Ext)
    (hstate : s.state = DecState.noError)
    (hdr : IsDrainingForResetOrDestroy s = true)
    (hps : s.pendingSurfaceId = none)
    (htask : ext.taskType = TaskType.autoCodec) :
    (∀ e ∈ (DequeueOutput s ext [OutputResp.codecError]).evs,
      IsNotifyErrorEv e = false) ∧
    (DequeueOutput s ext [OutputResp.codecError]).s.drainType = DrainType.noDrain ∧
    (s.drainType = DrainType.forReset →
      Ev.notifyResetDone ∈ (DequeueOutput s ext [OutputResp.codecError]).evs) ∧
    (s.drainType = DrainType.forDestroy →
      Ev.postActualDestroy ∈ (DequeueOutput s ext [OutputResp.codecError]).evs) := by
  have hcase : s.drainType = DrainType.forReset ∨ s.drainType = DrainType.forDestroy := by
    unfold IsDrainingForResetOrDestroy at hdr
    cases h : s.drainType <;> simp [h] at hdr <;> simp
  rcases hcase with h | h <;> by_cases hmc : s.mediaCodec = true <;>
    simp [DequeueOutput, DequeueLoop, OnDrainCompleted, ResetCodecState,
      ConfigureCodecAsync, NotifyError, IsDrainingForResetOrDestroy, IsNotifyErrorEv,
      hstate, hps, h, hmc, htask]

/-- Witness for C4: a reset drain hitting a codec error still posts
reset-done and surfaces no error. -/
theorem C4_drain_error_swallowed_witness :
    Ev.notifyResetDone ∈ (DequeueOutput { BaseSt with drainType := DrainType.forReset }
      BaseExt [OutputResp.codecError]).evs :=
  (C4_drain_error_swallowed { BaseSt with drainType := DrainType.forReset } BaseExt
    rfl rfl rfl rfl).2.2.1 rfl

/-- A trace is frame-free when it contains no picture-ready and no
end-of-bitstream-buffer notification. -/
def FramesFree (evs : List Ev) : Bool :=
  evs.all (fun e => !(IsPictureReadyEv e || IsEOBBEv e))

/-- A frame-free trace contains no picture-ready notification. -/
theorem FramesFree_no_pictureReady {evs : List Ev} (h : FramesFree evs = true) :
    ∀ e ∈ evs, IsPictureReadyEv e = false := by
  intro e he
  have h2 := List.all_eq_true.mp h e he
  simp at h2
  exact h2.1

/-- A frame-free trace contains no end-of-bitstream-buffer notification. -/
theorem FramesFree_no_eobb {evs : List Ev} (h : FramesFree evs = true) :
    ∀ e ∈ evs, IsEOBBEv e = false := by
  intro e he
  have h2 := List.all_eq_true.mp h e he
  simp at h2
  exact h2.2

/-- Frame-freeness distributes over concatenation. -/
theorem FramesFree_append (a b : List Ev) :
    FramesFree (a ++ b) = (FramesFree a && FramesFree b) := by
  simp [FramesFree]

/-- NotifyError emits no per-frame client notification and only flips the
state to error. -/
theorem NotifyError_facts (e : ErrCode) (s : Mcvd) :
    FramesFree (NotifyError e s).evs = true ∧
    (NotifyError e s).s = { s with state := DecState.error } := by
  constructor
  · unfold NotifyError
    split <;> simp [FramesFree, IsPictureReadyEv, IsEOBBEv]
  · rfl

/-- OnCodecConfigured emits no per-frame client notification and preserves
the pending queue, the in-decoder map, the drain intent, and avoidance of
the surface-destroyed state. -/
theorem OnCodecConfigured_facts (s : Mcvd) (ok : Bool) (ext : Ext) :
    FramesFree (OnCodecConfigured s ok ext).evs = true ∧
    (OnCodecConfigured s ok ext).s.pendingBitstreamRecords = s.pendingBitstreamRecords ∧
    (OnCodecConfigured s ok ext).s.bitstreamBuffersInDecoder = s.bitstreamBuffersInDecoder ∧
    (OnCodecConfigured s ok ext).s.drainType = s.drainType ∧
    (s.state ≠ DecState.surfaceDestroyed →
      (OnCodecConfigured s ok ext).s.state ≠ DecState.surfaceDestroyed) := by
  unfold OnCodecConfigured
  by_cases hdp : s.deferredInitPending <;> cases ok <;>
    simp [hdp, NotifyError, ManageTimer, FramesFree, IsPictureReadyEv, IsEOBBEv] <;>
    split <;> simp_all [NotifyError, ManageTimer]

/-- Frame-freeness of a cons unfolds to the head check and the tail. -/
theorem FramesFree_cons (e0 : Ev) (l : List Ev) :
    FramesFree (e0 :: l) = (!(IsPictureReadyEv e0 || IsEOBBEv e0) && FramesFree l) := by
  simp [FramesFree]

/-- ConfigureCodecAsync emits no per-frame client notification and preserves
the pending queue, the in-decoder map, the drain intent, and never lands in
the surface-destroyed state. -/
theorem ConfigureCodecAsync_facts (s : Mcvd) (ext : Ext) :
    FramesFree (ConfigureCodecAsync s ext).evs = true ∧
    (ConfigureCodecAsync s ext).s.pendingBitstreamRecords = s.pendingBitstreamRecords ∧
    (ConfigureCodecAsync s ext).s.bitstreamBuffersInDecoder = s.bitstreamBuffersInDecoder ∧
    (ConfigureCodecAsync s ext).s.drainType = s.drainType ∧
    (ConfigureCodecAsync s ext).s.state ≠ DecState.surfaceDestroyed := by
  obtain ⟨ha1, ha2, ha3, ha4, ha5⟩ := OnCodecConfigured_facts
    { s with state := DecState.waitingForCodec, mediaCodec := false } false ext
  obtain ⟨hb1, hb2, hb3, hb4, hb5⟩ := OnCodecConfigured_facts
    { s with state := DecState.waitingForCodec } false ext
  have ha5' := ha5 (by simp)
  have hb5' := hb5 (by simp)
  have hca : FramesFree (Ev.releaseMediaCodec ::
      (OnCodecConfigured { s with state := DecState.waitingForCodec, mediaCodec := false }
        false ext).evs) = true := by
    simp [FramesFree_cons, IsPictureReadyEv, IsEOBBEv, ha1]
  have hlit2 : FramesFree [Ev.releaseMediaCodec, Ev.createCodecAsync] = true := by
    simp [FramesFree, IsPictureReadyEv, IsEOBBEv]
  have hlit1 : FramesFree [Ev.createCodecAsync] = true := by
    simp [FramesFree, IsPictureReadyEv, IsEOBBEv]
  by_cases hmc : s.mediaCodec = true
  · cases htt : ext.taskType
    · have h : ConfigureCodecAsync s ext =
          { s := { s with state := DecState.waitingForCodec, mediaCodec := false },
            evs := [Ev.releaseMediaCodec, Ev.createCodecAsync] } := by
        simp [ConfigureCodecAsync, hmc, htt]
      rw [h]
      exact ⟨hlit2, rfl, rfl, rfl, by simp⟩
    · by_cases hsw : (!s.isEncrypted &&
          (s.codecKind = VideoCodec.vp8 || s.codecKind = VideoCodec.vp9)) = true
      · have h : ConfigureCodecAsync s ext =
            { s := (OnCodecConfigured
                { s with state := DecState.waitingForCodec, mediaCodec := false }
                false ext).s,
              evs := Ev.releaseMediaCodec :: (OnCodecConfigured
                { s with state := DecState.waitingForCodec, mediaCodec := false }
                false ext).evs } := by
          simp [ConfigureCodecAsync, IsSwForbidden, hmc, htt, hsw]
        rw [h]
        exact ⟨hca, ha2, ha3, ha4, ha5'⟩
      · have h : ConfigureCodecAsync s ext =
            { s := { s with state := DecState.waitingForCodec, mediaCodec := false },
              evs := [Ev.releaseMediaCodec, Ev.createCodecAsync] } := by
          simp [ConfigureCodecAsync, IsSwForbidden, hmc, htt, hsw]
        rw [h]
        exact ⟨hlit2, rfl, rfl, rfl, by simp⟩
    · have h : ConfigureCodecAsync s ext =
          { s := (OnCodecConfigured
              { s with state := DecState.waitingForCodec, mediaCodec := false }
              false ext).s,
            evs := Ev.releaseMediaCodec :: (OnCodecConfigured
              { s with state := DecState.waitingForCodec, mediaCodec := false }
              false ext).evs } := by
        simp [ConfigureCodecAsync, hmc, htt]
      rw [h]
      exact ⟨hca, ha2, ha3, ha4, ha5'⟩
  · cases htt : ext.taskType
    · have h : ConfigureCodecAsync s ext =
          { s := { s with state := DecState.waitingForCodec },
            evs := [Ev.createCodecAsync] } := by
        simp [ConfigureCodecAsync, hmc, htt]
      rw [h]
      exact ⟨hlit1, rfl, rfl, rfl, by simp⟩
    · by_cases hsw : (!s.isEncrypted &&
          (s.codecKind = VideoCodec.vp8 || s.codecKind = VideoCodec.vp9)) = true
      · have h : ConfigureCodecAsync s ext =
            { s := (OnCodecConfigured { s with state := DecState.waitingForCodec }
                false ext).s,
              evs := (OnCodecConfigured { s with state := DecState.waitingForCodec }
                false ext).evs } := by
          simp [ConfigureCodecAsync, IsSwForbidden, hmc, htt, hsw]
        rw [h]
        exact ⟨hb1, hb2, hb3, hb4, hb5'⟩
      · have h : ConfigureCodecAsync s ext =
            { s := { s with state := DecState.waitingForCodec },
              evs := [Ev.createCodecAsync] } := by
          simp [ConfigureCodecAsync, IsSwForbidden, hmc, htt, hsw]
        rw [h]
        exact ⟨hlit1, rfl, rfl, rfl, by simp⟩
    · have h : ConfigureCodecAsync s ext =
          { s := (OnCodecConfigured { s with state := DecState.waitingForCodec }
              false ext).s,
            evs := (OnCodecConfigured { s with state := DecState.waitingForCodec }
              false ext).evs } := by
        simp [ConfigureCodecAsync, hmc, htt]
      rw [h]
      exact ⟨hb1, hb2, hb3, hb4, hb5'⟩

/-- ResetCodecState emits no per-frame client notification, preserves the
pending queue, clears the in-decoder map whenever it does not early-return,
and never lands in the surface-destroyed state. -/
theorem ResetCodecState_facts (s : Mcvd) (ext : Ext) :
    FramesFree (ResetCodecState s ext).evs = true ∧
    (ResetCodecState s ext).s.pendingBitstreamRecords = s.pendingBitstreamRecords ∧
    (s.state ≠ DecState.waitingForCodec → s.state ≠ DecState.surfaceDestroyed →
      (ResetCodecState s ext).s.bitstreamBuffersInDecoder = []) ∧
    (s.state ≠ DecState.surfaceDestroyed →
      (ResetCodecState s ext).s.state ≠ DecState.surfaceDestroyed) := by
  simp only [ResetCodecState]
  split_ifs with h1 h2 h3
  · refine ⟨rfl, rfl, ?_, fun h => h⟩
    intro ha hb
    simp [ha, hb] at h1
  · exact ⟨rfl, rfl, fun _ _ => rfl, fun _ => by simp⟩
  · exact ⟨by simp [FramesFree, IsPictureReadyEv, IsEOBBEv], rfl, fun _ _ => rfl,
      fun _ => by simp⟩
  · obtain ⟨hc1, hc2, hc3, hc4, hc5⟩ := ConfigureCodecAsync_facts
      { s with
        bitstreamBuffersInDecoder := []
        pendingInputBufIndex := -1
        state := DecState.noError
        codecNeedsReset := false
        timerRegistered := false } ext
    exact ⟨hc1, hc2, fun _ _ => hc3, fun _ => hc5⟩

/-- OnDrainCompleted, called outside waitingForCodec and surfaceDestroyed,
emits no per-frame client notification, preserves the pending queue, clears
the in-decoder map, clears the drain intent, and never lands in the
surface-destroyed state. -/
theorem OnDrainCompleted_facts (s : Mcvd) (ext : Ext)
    (hwfc : s.state ≠ DecState.waitingForCodec)
    (hsd : s.state ≠ DecState.surfaceDestroyed) :
    FramesFree (OnDrainCompleted s ext).evs = true ∧
    (OnDrainCompleted s ext).s.pendingBitstreamRecords = s.pendingBitstreamRecords ∧
    (OnDrainCompleted s ext).s.bitstreamBuffersInDecoder = [] ∧
    (OnDrainCompleted s ext).s.drainType = DrainType.noDrain ∧
    (OnDrainCompleted s ext).s.state ≠ DecState.surfaceDestroyed := by
  obtain ⟨ha1, ha2, ha3, ha4⟩ := ResetCodecState_facts { s with state := DecState.error } ext
  obtain ⟨hb1, hb2, hb3, hb4⟩ := ResetCodecState_facts s ext
  have ha3' := ha3 (by simp) (by simp)
  have ha4' := ha4 (by simp)
  have hb3' := hb3 hwfc hsd
  have hb4' := hb4 hsd
  have happf : FramesFree ((ResetCodecState s ext).evs ++ [Ev.notifyFlushDone]) = true := by
    rw [FramesFree_append, hb1]
    simp [FramesFree, IsPictureReadyEv, IsEOBBEv]
  have happr : FramesFree ((ResetCodecState s ext).evs ++ [Ev.notifyResetDone]) = true := by
    rw [FramesFree_append, hb1]
    simp [FramesFree, IsPictureReadyEv, IsEOBBEv]
  have happd : FramesFree ((ResetCodecState s ext).evs ++ [Ev.postActualDestroy]) = true := by
    rw [FramesFree_append, hb1]
    simp [FramesFree, IsPictureReadyEv, IsEOBBEv]
  have hcase : s.drainType = DrainType.noDrain ∨ s.drainType = DrainType.forFlush ∨
      s.drainType = DrainType.forReset ∨ s.drainType = DrainType.forDestroy := by
    cases s.drainType <;> simp
  rcases hcase with hdt | hdt | hdt | hdt
  · have hE : OnDrainCompleted s ext =
        { s := { (ResetCodecState { s with state := DecState.error } ext).s with
            drainType := DrainType.noDrain },
          evs := (ResetCodecState { s with state := DecState.error } ext).evs } := by
      simp [OnDrainCompleted, hdt]
    rw [hE]
    exact ⟨ha1, ha2, ha3', rfl, ha4'⟩
  · have hE : OnDrainCompleted s ext =
        { s := { (ResetCodecState s ext).s with drainType := DrainType.noDrain },
          evs := (ResetCodecState s ext).evs ++ [Ev.notifyFlushDone] } := by
      simp [OnDrainCompleted, hdt]
    rw [hE]
    exact ⟨happf, hb2, hb3', rfl, hb4'⟩
  · have hE : OnDrainCompleted s ext =
        { s := { (ResetCodecState s ext).s with drainType := DrainType.noDrain },
          evs := (ResetCodecState s ext).evs ++ [Ev.notifyResetDone] } := by
      simp [OnDrainCompleted, hdt]
    rw [hE]
    exact ⟨happr, hb2, hb3', rfl, hb4'⟩
  · have hE : OnDrainCompleted s ext =
        { s := { (ResetCodecState s ext).s with drainType := DrainType.noDrain },
          evs := (ResetCodecState s ext).evs ++ [Ev.postActualDestroy] } := by
      simp [OnDrainCompleted, hdt]
    rw [hE]
    exact ⟨happd, hb2, hb3', rfl, hb4'⟩

/-- UpdateSurface emits no per-frame client notification, preserves the
pending queue, the in-decoder map and the drain intent, and leaves the
state either unchanged or in error. -/
theorem UpdateSurface_facts (s : Mcvd) (ext : Ext) :
    FramesFree (UpdateSurface s ext).2.2 = true ∧
    (UpdateSurface s ext).1.pendingBitstreamRecords = s.pendingBitstreamRecords ∧
    (UpdateSurface s ext).1.bitstreamBuffersInDecoder = s.bitstreamBuffersInDecoder ∧
    (UpdateSurface s ext).1.drainType = s.drainType ∧
    ((UpdateSurface s ext).1.state = s.state ∨
      (UpdateSurface s ext).1.state = DecState.error) := by
  by_cases hA : ext.allocateSurfaceOk = true <;>
    by_cases hB : ext.makeContextCurrent = true <;>
    by_cases hC : ext.pbmInitSurfaceOk = true <;>
    by_cases hD : ext.setSurfaceOk = true <;>
    by_cases hM : s.mediaCodec = true <;>
    by_cases hP : s.clientPresent = true <;>
    simp [UpdateSurface, NotifyError, FramesFree, IsPictureReadyEv, IsEOBBEv,
      hA, hB, hC, hD, hM, hP]

/-- Submitting the end-of-stream marker reduces QueueInputWithIndex to a
queue-EOS command and a pop. -/
theorem QueueInputWithIndex_eos (s : Mcvd) (ext : Ext) (front : BitstreamRecord)
    (rest : List BitstreamRecord) (idx : Int) (fresh : Bool)
    (q : QueueInputStatus) (insRest : List InputResp) (hfid : front.id = -1) :
    QueueInputWithIndex s ext front rest idx fresh q insRest =
      { s := { s with pendingBitstreamRecords := rest }, did := true,
        evs := [Ev.queueEOS idx], ins := insRest } := by
  simp [QueueInputWithIndex, hfid]

/-- With only end-of-stream markers queued, QueueInput emits no per-frame
client notification and preserves the all-markers queue shape, the
in-decoder map, the drain intent, and avoidance of surfaceDestroyed. -/
theorem QueueInput_rq (s : Mcvd) (ext : Ext) (ins : List InputResp)
    (hq : ∀ b ∈ s.pendingBitstreamRecords, b.id = -1) :
    FramesFree (QueueInput s ext ins).evs = true ∧
    (∀ b ∈ (QueueInput s ext ins).s.pendingBitstreamRecords, b.id = -1) ∧
    (QueueInput s ext ins).s.bitstreamBuffersInDecoder = s.bitstreamBuffersInDecoder ∧
    (QueueInput s ext ins).s.drainType = s.drainType ∧
    (s.state ≠ DecState.surfaceDestroyed →
      (QueueInput s ext ins).s.state ≠ DecState.surfaceDestroyed) := by
  have hNE1 := fun e' s' => (NotifyError_facts e' s').1
  have hNE2 := fun e' s' => (NotifyError_facts e' s').2
  rcases hqcase : s.pendingBitstreamRecords with _ | ⟨front, rest⟩
  · unfold QueueInput
    rw [hqcase]
    split
    · exact ⟨rfl, hq, rfl, rfl, fun h => h⟩
    split
    · exact ⟨rfl, hq, rfl, rfl, fun h => h⟩
    · exact ⟨rfl, hq, rfl, rfl, fun h => h⟩
  · have hfid : front.id = -1 := hq front (by rw [hqcase]; exact List.mem_cons_self _ _)
    have hqrest : ∀ b ∈ rest, b.id = -1 :=
      fun b hb => hq b (by rw [hqcase]; exact List.mem_cons_of_mem _ hb)
    cases ins with
    | nil =>
      unfold QueueInput
      rw [hqcase]
      split
      · exact ⟨rfl, hq, rfl, rfl, fun h => h⟩
      split
      · exact ⟨rfl, hq, rfl, rfl, fun h => h⟩
      · exact ⟨rfl, hq, rfl, rfl, fun h => h⟩
    | cons resp insRest =>
      unfold QueueInput
      rw [hqcase]
      split
      · exact ⟨rfl, hq, rfl, rfl, fun h => h⟩
      split
      · exact ⟨rfl, hq, rfl, rfl, fun h => h⟩
      split
      · rename_i heq
        exact absurd heq (List.cons_ne_nil _ _)
      rename_i front2 rest2 heq
      injection heq with hf hr
      subst hf
      subst hr
      split
      · rename_i heq2
        exact absurd heq2 (List.cons_ne_nil _ _)
      rename_i resp2 insRest2 heq2
      injection heq2 with h1 h2
      subst h1
      subst h2
      split
      · split
        · exact ⟨rfl, hq, rfl, rfl, fun h => h⟩
        · exact ⟨hNE1 _ _, hq, rfl, rfl, fun _ => by simp [NotifyError]⟩
        · rename_i idx heq
          rw [QueueInputWithIndex_eos s ext front rest idx true resp.queueStatus insRest hfid]
          exact ⟨by simp [FramesFree, IsPictureReadyEv, IsEOBBEv], hqrest, rfl, rfl,
            fun h => h⟩
      · rw [QueueInputWithIndex_eos s ext front rest s.pendingInputBufIndex false
          resp.queueStatus insRest hfid]
        exact ⟨by simp [FramesFree, IsPictureReadyEv, IsEOBBEv], hqrest, rfl, rfl,
          fun h => h⟩

/-- While the queue holds only end-of-stream markers and either a
reset-or-destroy drain is active or the in-decoder map is empty, the inner
output loop emits no per-frame client notification and preserves that
shape. -/
theorem DequeueLoop_rq (s : Mcvd) (ext : Ext) (acc : List Ev) (outs : List OutputResp)
    (hq : ∀ b ∈ s.pendingBitstreamRecords, b.id = -1)
    (hmap : IsDrainingForResetOrDestroy s = true ∨ s.bitstreamBuffersInDecoder = [])
    (hwfc : s.state ≠ DecState.waitingForCodec)
    (hsd : s.state ≠ DecState.surfaceDestroyed)
    (hacc : FramesFree acc = true) :
    FramesFree (DequeueLoop s ext acc outs).evs = true ∧
    (∀ b ∈ (DequeueLoop s ext acc outs).s.pendingBitstreamRecords, b.id = -1) ∧
    (IsDrainingForResetOrDestroy (DequeueLoop s ext acc outs).s = true ∨
      (DequeueLoop s ext acc outs).s.bitstreamBuffersInDecoder = []) ∧
    (DequeueLoop s ext acc outs).s.state ≠ DecState.surfaceDestroyed := by
  induction outs with
  | nil => exact ⟨hacc, hq, hmap, hsd⟩
  | cons r tl ih =>
    cases r with
    | codecError =>
      by_cases hdr : IsDrainingForResetOrDestroy s = true
      · obtain ⟨h1, h2, h3, h4, h5⟩ := OnDrainCompleted_facts
          { s with state := DecState.error } ext (by simp) (by simp)
        have hE : DequeueLoop s ext acc (OutputResp.codecError :: tl) =
            { s := (OnDrainCompleted { s with state := DecState.error } ext).s,
              did := false,
              evs := acc ++ (OnDrainCompleted { s with state := DecState.error } ext).evs,
              outs := tl } := by
          simp [DequeueLoop, hdr]
        rw [hE]
        refine ⟨?_, ?_, Or.inr h3, h5⟩
        · rw [FramesFree_append, hacc, h1]
          rfl
        · rw [h2]
          exact hq
      · obtain ⟨n1, n2⟩ := NotifyError_facts ErrCode.platformFailure s
        have hE : DequeueLoop s ext acc (OutputResp.codecError :: tl) =
            { s := (NotifyError ErrCode.platformFailure s).s,
              did := false,
              evs := acc ++ (NotifyError ErrCode.platformFailure s).evs,
              outs := tl } := by
          simp [DequeueLoop, hdr]
        rw [hE, n2]
        refine ⟨?_, hq, ?_, by simp⟩
        · rw [FramesFree_append, hacc]
          simpa using n1
        · exact hmap
    | againLater =>
      have hE : DequeueLoop s ext acc (OutputResp.againLater :: tl) =
          { s := s, did := false, evs := acc, outs := tl } := by
        simp [DequeueLoop]
      rw [hE]
      exact ⟨hacc, hq, hmap, hsd⟩
    | formatChanged sz sizeOk =>
      by_cases hdd : s.drainType = DrainType.forDestroy
      · have hE : DequeueLoop s ext acc (OutputResp.formatChanged sz sizeOk :: tl) =
            { s := s, did := true, evs := acc, outs := tl } := by
          simp [DequeueLoop, hdd]
        rw [hE]
        exact ⟨hacc, hq, hmap, hsd⟩
      · cases sizeOk with
        | false =>
          obtain ⟨n1, n2⟩ := NotifyError_facts ErrCode.platformFailure s
          have hE : DequeueLoop s ext acc (OutputResp.formatChanged sz false :: tl) =
              { s := (NotifyError ErrCode.platformFailure s).s,
                did := false,
                evs := acc ++ (NotifyError ErrCode.platformFailure s).evs,
                outs := tl } := by
            simp [DequeueLoop, hdd]
          rw [hE, n2]
          refine ⟨?_, hq, hmap, by simp⟩
          rw [FramesFree_append, hacc]
          simpa using n1
        | true =>
          have hE : DequeueLoop s ext acc (OutputResp.formatChanged sz true :: tl) =
              { s := { s with outputSize := sz }, did := true, evs := acc,
                outs := tl } := by
            simp [DequeueLoop, hdd]
          rw [hE]
          exact ⟨hacc, hq, hmap, hsd⟩
    | buffersChanged =>
      have hE : DequeueLoop s ext acc (OutputResp.buffersChanged :: tl) =
          DequeueLoop s ext acc tl := by
        simp [DequeueLoop]
      rw [hE]
      exact ih
    | okBuf idx pts eos =>
      cases eos with
      | true =>
        obtain ⟨h1, h2, h3, h4, h5⟩ := OnDrainCompleted_facts s ext hwfc hsd
        have hE : DequeueLoop s ext acc (OutputResp.okBuf idx pts true :: tl) =
            { s := (OnDrainCompleted s ext).s, did := false,
              evs := acc ++ (OnDrainCompleted s ext).evs, outs := tl } := by
          simp [DequeueLoop]
        rw [hE]
        refine ⟨?_, ?_, Or.inr h3, h5⟩
        · rw [FramesFree_append, hacc, h1]
          rfl
        · rw [h2]
          exact hq
      | false =>
        by_cases hdr : IsDrainingForResetOrDestroy s = true
        · have hE : DequeueLoop s ext acc (OutputResp.okBuf idx pts false :: tl) =
              { s := s, did := true,
                evs := acc ++ [Ev.releaseOutputBuffer idx false], outs := tl } := by
            simp [DequeueLoop, hdr]
          rw [hE]
          refine ⟨?_, hq, hmap, hsd⟩
          rw [FramesFree_append, hacc]
          simp [FramesFree, IsPictureReadyEv, IsEOBBEv]
        · have hm : s.bitstreamBuffersInDecoder = [] := by
            rcases hmap with h | h
            · exact absurd h hdr
            · exact h
          have hE : DequeueLoop s ext acc (OutputResp.okBuf idx pts false :: tl) =
              { s := s, did := true,
                evs := acc ++ [Ev.releaseOutputBuffer idx false], outs := tl } := by
            simp [DequeueLoop, hdr, hm, MapFind]
          rw [hE]
          refine ⟨?_, hq, hmap, hsd⟩
          rw [FramesFree_append, hacc]
          simp [FramesFree, IsPictureReadyEv, IsEOBBEv]

/-- DequeueOutput under the reset-quiet shape: no per-frame notification and
the shape is preserved. -/
theorem DequeueOutput_rq (s : Mcvd) (ext : Ext) (outs : List OutputResp)
    (hq : ∀ b ∈ s.pendingBitstreamRecords, b.id = -1)
    (hmap : IsDrainingForResetOrDestroy s = true ∨ s.bitstreamBuffersInDecoder = [])
    (hsd : s.state ≠ DecState.surfaceDestroyed) :
    FramesFree (DequeueOutput s ext outs).evs = true ∧
    (∀ b ∈ (DequeueOutput s ext outs).s.pendingBitstreamRecords, b.id = -1) ∧
    (IsDrainingForResetOrDestroy (DequeueOutput s ext outs).s = true ∨
      (DequeueOutput s ext outs).s.bitstreamBuffersInDecoder = []) ∧
    (DequeueOutput s ext outs).s.state ≠ DecState.surfaceDestroyed := by
  unfold DequeueOutput
  split
  · exact ⟨rfl, hq, hmap, hsd⟩
  rename_i hguard
  have hwfc : s.state ≠ DecState.waitingForCodec := by
    intro h
    simp [h] at hguard
  split
  · exact ⟨rfl, hq, hmap, hsd⟩
  split
  · split
    · exact ⟨rfl, hq, hmap, hsd⟩
    · obtain ⟨u1, u2, u3, u4, u5⟩ := UpdateSurface_facts s ext
      have hu : IsDrainingForResetOrDestroy (UpdateSurface s ext).1 =
          IsDrainingForResetOrDestroy s := by
        simp [IsDrainingForResetOrDestroy, u4]
      have hq' : ∀ b ∈ (UpdateSurface s ext).1.pendingBitstreamRecords, b.id = -1 := by
        rw [u2]
        exact hq
      have hmap' : IsDrainingForResetOrDestroy (UpdateSurface s ext).1 = true ∨
          (UpdateSurface s ext).1.bitstreamBuffersInDecoder = [] := by
        rw [hu, u3]
        exact hmap
      have hsd' : (UpdateSurface s ext).1.state ≠ DecState.surfaceDestroyed := by
        rcases u5 with h | h <;> rw [h]
        · exact hsd
        · simp
      have hwfc' : (UpdateSurface s ext).1.state ≠ DecState.waitingForCodec := by
        rcases u5 with h | h <;> rw [h]
        · exact hwfc
        · simp
      split
      · exact ⟨u1, hq', hmap', hsd'⟩
      · exact DequeueLoop_rq (UpdateSurface s ext).1 ext (UpdateSurface s ext).2.2 outs
          hq' hmap' hwfc' hsd' u1
  · exact DequeueLoop_rq s ext [] outs hq hmap hwfc hsd rfl

/-- The DoIOTask loop under the reset-quiet shape: no per-frame
notification and the shape is preserved, for any fuel. -/
theorem IoLoop_rq (f : Nat) (s : Mcvd) (ext : Ext) (ins : List InputResp)
    (outs : List OutputResp)
    (hq : ∀ b ∈ s.pendingBitstreamRecords, b.id = -1)
    (hmap : IsDrainingForResetOrDestroy s = true ∨ s.bitstreamBuffersInDecoder = [])
    (hsd : s.state ≠ DecState.surfaceDestroyed) :
    FramesFree (IoLoop f s ext ins outs).evs = true ∧
    (∀ b ∈ (IoLoop f s ext ins outs).s.pendingBitstreamRecords, b.id = -1) ∧
    (IsDrainingForResetOrDestroy (IoLoop f s ext ins outs).s = true ∨
      (IoLoop f s ext ins outs).s.bitstreamBuffersInDecoder = []) ∧
    (IoLoop f s ext ins outs).s.state ≠ DecState.surfaceDestroyed := by
  induction f generalizing s ins outs with
  | zero => exact ⟨rfl, hq, hmap, hsd⟩
  | succ n ih =>
    obtain ⟨q1, q2, q3, q4, q5⟩ := QueueInput_rq s ext ins hq
    have hmapq : IsDrainingForResetOrDestroy (QueueInput s ext ins).s = true ∨
        (QueueInput s ext ins).s.bitstreamBuffersInDecoder = [] := by
      have hqq : IsDrainingForResetOrDestroy (QueueInput s ext ins).s =
          IsDrainingForResetOrDestroy s := by
        simp [IsDrainingForResetOrDestroy, q4]
      rw [hqq, q3]
      exact hmap
    obtain ⟨d1, d2, d3, d4⟩ :=
      DequeueOutput_rq (QueueInput s ext ins).s ext outs q2 hmapq (q5 hsd)
    simp only [IoLoop]
    split
    · obtain ⟨r1, r2, r3, r4⟩ :=
        ih (DequeueOutput (QueueInput s ext ins).s ext outs).s
          (QueueInput s ext ins).ins
          (DequeueOutput (QueueInput s ext ins).s ext outs).outs d2 d3 d4
      refine ⟨?_, r2, r3, r4⟩
      rw [FramesFree_append, FramesFree_append, q1, d1, r1]
      rfl
    · refine ⟨?_, d2, d3, d4⟩
      rw [FramesFree_append, q1, d1]
      rfl

/-- A full DoIOTask run from a state whose queue holds only end-of-stream
markers, with a reset-or-destroy drain active or an empty in-decoder map,
emits no per-frame client notification. -/
theorem DoIOTask_frames (f : Nat) (st : Bool) (s : Mcvd) (ext : Ext)
    (ins : List InputResp) (outs : List OutputResp)
    (hq : ∀ b ∈ s.pendingBitstreamRecords, b.id = -1)
    (hmap : IsDrainingForResetOrDestroy s = true ∨ s.bitstreamBuffersInDecoder = []) :
    FramesFree (DoIOTask f st s ext ins outs).evs = true := by
  unfold DoIOTask
  split
  · rfl
  · rename_i hguard
    have hsd : s.state ≠ DecState.surfaceDestroyed := by
      intro h
      simp [h] at hguard
    exact (IoLoop_rq f s ext ins outs hq hmap hsd).1

/-- Counting end-of-bitstream notifications distributes over
concatenation. -/
theorem CountEOBB_append (a b : List Ev) (id : Int) :
    CountEOBB (a ++ b) id = CountEOBB a id + CountEOBB b id := by
  simp [CountEOBB, List.countP_append]

/-- The cancellation loop emits exactly one end-of-bitstream notification
per queued record carrying the id (for any id other than the marker). -/
theorem CountEOBB_cancel (l : List BitstreamRecord) (id : Int) (hid : id ≠ -1) :
    CountEOBB (CancelEvents l) id = l.countP (fun b => b.id == id) := by
  induction l with
  | nil => simp [CancelEvents, CountEOBB]
  | cons b tl ih =>
    by_cases hb : b.id = -1
    · have hne : ¬((-1 : Int) = id) := fun h => hid h.symm
      simp [CancelEvents, CountEOBB, List.countP_cons, hb, hne] at ih ⊢
      exact ih
    · simp [CancelEvents, CountEOBB, List.countP_cons, hb] at ih ⊢
      rw [ih]

/-- A frame-free trace contains zero end-of-bitstream notifications. -/
theorem CountEOBB_of_framesFree (evs : List Ev) (id : Int)
    (h : FramesFree evs = true) : CountEOBB evs id = 0 := by
  rw [CountEOBB, List.countP_eq_zero]
  intro e he
  have h2 := FramesFree_no_eobb h e he
  simp
  intro hcontra
  rw [hcontra] at h2
  simp [IsEOBBEv] at h2

/-- The cancellation loop emits no picture-ready notification. -/
theorem CancelEvents_no_pictureReady (l : List BitstreamRecord) :
    ∀ e ∈ CancelEvents l, IsPictureReadyEv e = false := by
  intro e he
  simp [CancelEvents] at he
  obtain ⟨b, hb, hbid, hfb⟩ := he
  rw [← hfb]
  simp [IsPictureReadyEv]

/-- C2: for every decode sequence followed by a reset, each input that was
enqueued but never submitted to the codec yields exactly one
end-of-bitstream-buffer notification during the reset (counted per queued
record carrying its id), and the reset emits no picture-ready notification
at all. -/
theorem C2_reset_cancels (fuel : Nat) (s : Mcvd) (ext : Ext)
    (ins : List InputResp) (outs : List OutputResp) (id : Int)
    (hdefer : s.deferSurfaceCreation = false) (hid : id ≠ -1) :
    CountEOBB (Reset fuel s ext ins outs).evs id =
      s.pendingBitstreamRecords.countP (fun b => b.id == id) ∧
    ∀ e ∈ (Reset fuel s ext ins outs).evs, IsPictureReadyEv e = false := by
  by_cases hvp : (s.mediaCodec && s.codecKind = VideoCodec.vp8 &&
      !s.bitstreamBuffersInDecoder.isEmpty) = true
  · by_cases henq : s.drainType = DrainType.noDrain
    · have hE : Reset fuel s ext ins outs =
          { s := (DoIOTask fuel true
              { s with
                pendingBitstreamRecords := [EosRecord]
                bitstreamsNotifiedInAdvance := []
                drainType := DrainType.forReset } ext ins outs).s,
            evs := CancelEvents s.pendingBitstreamRecords ++
              (DoIOTask fuel true
                { s with
                  pendingBitstreamRecords := [EosRecord]
                  bitstreamsNotifiedInAdvance := []
                  drainType := DrainType.forReset } ext ins outs).evs,
            ins := (DoIOTask fuel true
              { s with
                pendingBitstreamRecords := [EosRecord]
                bitstreamsNotifiedInAdvance := []
                drainType := DrainType.forReset } ext ins outs).ins,
            outs := (DoIOTask fuel true
              { s with
                pendingBitstreamRecords := [EosRecord]
                bitstreamsNotifiedInAdvance := []
                drainType := DrainType.forReset } ext ins outs).outs } := by
        simp [Reset, hdefer, hvp, StartCodecDrain, henq, DecodeBuffer]
      have hkick : FramesFree (DoIOTask fuel true
          { s with
            pendingBitstreamRecords := [EosRecord]
            bitstreamsNotifiedInAdvance := []
            drainType := DrainType.forReset } ext ins outs).evs = true := by
        apply DoIOTask_frames
        · intro b hb
          simp at hb
          rw [hb]
          rfl
        · left
          rfl
      rw [hE]
      constructor
      · rw [CountEOBB_append, CountEOBB_cancel _ _ hid,
          CountEOBB_of_framesFree _ _ hkick]
        omega
      · intro e he
        rcases List.mem_append.mp he with h | h
        · exact CancelEvents_no_pictureReady _ e h
        · exact FramesFree_no_pictureReady hkick e h
    · have hE : Reset fuel s ext ins outs =
          { s := { s with
              pendingBitstreamRecords := []
              bitstreamsNotifiedInAdvance := []
              drainType := DrainType.forReset },
            evs := CancelEvents s.pendingBitstreamRecords,
            ins := ins, outs := outs } := by
        simp [Reset, hdefer, hvp, StartCodecDrain, henq]
      rw [hE]
      constructor
      · exact CountEOBB_cancel _ _ hid
      · exact CancelEvents_no_pictureReady _
  · have hrcs := ResetCodecState_facts
      { s with
        pendingBitstreamRecords := ([] : List BitstreamRecord)
        bitstreamsNotifiedInAdvance := ([] : List Int) } ext
    have hE : Reset fuel s ext ins outs =
        { s := (ResetCodecState
            { s with
              pendingBitstreamRecords := ([] : List BitstreamRecord)
              bitstreamsNotifiedInAdvance := ([] : List Int) } ext).s,
          evs := CancelEvents s.pendingBitstreamRecords ++
            ((ResetCodecState
              { s with
                pendingBitstreamRecords := ([] : List BitstreamRecord)
                bitstreamsNotifiedInAdvance := ([] : List Int) } ext).evs ++
              [Ev.notifyResetDone]),
          ins := ins, outs := outs } := by
      simp [Reset, hdefer, hvp]
    rw [hE]
    have hrdone : FramesFree [Ev.notifyResetDone] = true := by
      simp [FramesFree, IsPictureReadyEv, IsEOBBEv]
    have htail : FramesFree ((ResetCodecState
        { s with
          pendingBitstreamRecords := ([] : List BitstreamRecord)
          bitstreamsNotifiedInAdvance := ([] : List Int) } ext).evs ++
        [Ev.notifyResetDone]) = true := by
      rw [FramesFree_append, hrcs.1, hrdone]
      rfl
    constructor
    · rw [CountEOBB_append, CountEOBB_cancel _ _ hid,
        CountEOBB_of_framesFree _ _ htail]
      omega
    · intro e he
      rcases List.mem_append.mp he with h | h
      · exact CancelEvents_no_pictureReady _ e h
      · exact FramesFree_no_pictureReady htail e h

/-- Witness for C2: resetting a decoder with two queued data records (ids 4
and 9) emits exactly one cancellation notification for id 4 and no
picture-ready. -/
theorem C2_reset_cancels_witness :
    CountEOBB (Reset 1 { BaseSt with pendingBitstreamRecords :=
        [{ id := 4, size := 1, payload := 0, pts := 10, keyId := [], iv := [] },
         { id := 9, size := 1, payload := 0, pts := 20, keyId := [], iv := [] }] }
      BaseExt [] []).evs 4 = 1 :=
  (C2_reset_cancels 1 { BaseSt with pendingBitstreamRecords :=
      [{ id := 4, size := 1, payload := 0, pts := 10, keyId := [], iv := [] },
       { id := 9, size := 1, payload := 0, pts := 20, keyId := [], iv := [] }] }
    BaseExt [] [] 4 rfl (by decide)).1.trans (by decide)

/-- An oversized (4000 by 4000) H264 configuration in ALLOCATE mode. -/
def C8Cfg : VDAConfig :=
  { codec := VideoCodec.h264, width := 4000, height := 4000,
    outputMode := OutputMode.allocate, isEncrypted := false,
    deferredInitAllowed := true, surfaceId := 7 }

/-- A fully healthy environment for the entry point. -/
def C8Ext : InitExt :=
  { glCallbacksPresent := true, isKnownUnaccelerated := false,
    glesDecoderOk := true, anyRegisteredAVDA := false, lowEndOrOldSdk := false,
    allocateSurfaceOk := true, makeContextCurrent := true, pbmSurfaceOk := true,
    startThreadOk := true, hevcEnabled := false, vp8Available := true,
    vp9Available := true }

/-- C8 counterexample: the decoder entry point never checks the coded size —
a 4000 by 4000 H264 configuration (which the standalone ConfigSupported
predicate rejects for exceeding 3840 by 2160) passes the entry point, which
returns success and starts codec construction. -/
theorem C8_counterexample :
    C8Cfg.width > 3840 ∧
    ConfigSupported C8Cfg C8Ext = false ∧
    InitDecoder C8Cfg C8Ext =
      some { ret := true, constructedCodec := true, notifiedInitDone := none } := by
  decide

/-- C8 corrected: the entry point fails (without constructing a codec) for a
non-ALLOCATE output mode or an unsupported codec kind (H264, VP8, VP9,
HEVC only when enabled), but the coded-size ceiling of 3840 by 2160 is
enforced only by the standalone ConfigSupported predicate, which the entry
point does not consult. -/
theorem C8_validation_amended (cfg : VDAConfig) (ext : InitExt) :
    (cfg.outputMode ≠ OutputMode.allocate →
      InitDecoder cfg ext =
        some { ret := false, constructedCodec := false, notifiedInitDone := none }) ∧
    ((cfg.codec = VideoCodec.vp8 ∨ cfg.codec = VideoCodec.vp9 ∨
        (ext.hevcEnabled = true ∧ cfg.codec = VideoCodec.hevc) ∨
        cfg.codec = VideoCodec.h264 → False) →
      InitDecoder cfg ext =
        some { ret := false, constructedCodec := false, notifiedInitDone := none }) ∧
    (cfg.width > 3840 ∨ cfg.height > 2160 → ConfigSupported cfg ext = false) := by
  refine ⟨?_, ?_, ?_⟩
  · intro h
    simp [InitDecoder, h]
  · intro h
    have h1 : ¬(cfg.codec = VideoCodec.vp8) := fun hc => h (Or.inl hc)
    have h2 : ¬(cfg.codec = VideoCodec.vp9) := fun hc => h (Or.inr (Or.inl hc))
    have h3 : ¬(ext.hevcEnabled = true ∧ cfg.codec = VideoCodec.hevc) :=
      fun hc => h (Or.inr (Or.inr (Or.inl hc)))
    have h4 : ¬(cfg.codec = VideoCodec.h264) :=
      fun hc => h (Or.inr (Or.inr (Or.inr hc)))
    have hb : (cfg.codec = VideoCodec.vp8 || cfg.codec = VideoCodec.vp9 ||
        (ext.hevcEnabled && cfg.codec = VideoCodec.hevc) ||
        cfg.codec = VideoCodec.h264) = false := by
      simp [h1, h2, h4]
      intro hh
      exact fun hc => h3 ⟨hh, hc⟩
    simp [InitDecoder, hb]
  · intro h
    have hsz : (cfg.width > 3840 || cfg.height > 2160) = true := by
      rcases h with h | h <;> simp [h]
    simp only [ConfigSupported, hsz, if_true]
    split <;> rfl

/-- Witness for the amended C8 statement: the oversized configuration is
rejected by ConfigSupported. -/
theorem C8_validation_amended_witness : ConfigSupported C8Cfg C8Ext = false :=
  (C8_validation_amended C8Cfg C8Ext).2.2 (Or.inl (by decide))

/-- The inserted element belongs to the result of set insertion. -/
theorem self_mem_InsertInst (l : List Nat) (i : Nat) : i ∈ InsertInst l i := by
  unfold InsertInst
  split
  · assumption
  · simp

/-- Set insertion never yields the empty list. -/
theorem InsertInst_ne_nil (l : List Nat) (i : Nat) : InsertInst l i ≠ [] := by
  intro h
  have hmem := self_mem_InsertInst l i
  rw [h] at hmem
  simp at hmem

/-- Field-level description of StartTimer: the instance joins the set, the
tick flag is untouched, the repeating timer is left running, and a deferred
erasure of the instance is cancelled during a tick. -/
theorem StartTimer_facts (m : Mgr) (i : Nat) :
    (StartTimer m i).instances = InsertInst m.instances i ∧
    (StartTimer m i).tickInProgress = m.tickInProgress ∧
    (StartTimer m i).ioTimerRunning = true ∧
    (StartTimer m i).pendingErase =
      (if m.tickInProgress then EraseInst m.pendingErase i else m.pendingErase) := by
  by_cases ht : m.tickInProgress = true <;> by_cases hr : m.ioTimerRunning = true <;>
    simp [StartTimer, ht, hr]

/-- Outside a tick, StopTimer erases the instance immediately and stops the
repeating timer exactly when the set becomes empty. -/
theorem StopTimer_notick (m : Mgr) (i : Nat) (h : m.tickInProgress = false) :
    StopTimer m i =
      { m with
        instances := EraseInst m.instances i
        ioTimerRunning :=
          if (EraseInst m.instances i).isEmpty then false else m.ioTimerRunning } := by
  by_cases he : (EraseInst m.instances i).isEmpty = true <;> simp [StopTimer, h, he]

/-- Through the tick phase the tick flag stays up and the timer-running flag
keeps tracking nonemptiness of the instance set. -/
theorem foldl_ApplyAct_inv (acts : List TimerAct) (m : Mgr)
    (ht : m.tickInProgress = true)
    (hio : m.ioTimerRunning = true ↔ m.instances ≠ []) :
    (acts.foldl ApplyAct m).tickInProgress = true ∧
    ((acts.foldl ApplyAct m).ioTimerRunning = true ↔
      (acts.foldl ApplyAct m).instances ≠ []) := by
  induction acts generalizing m with
  | nil => exact ⟨ht, hio⟩
  | cons a tl ih =>
    have hstep : (ApplyAct m a).tickInProgress = true ∧
        ((ApplyAct m a).ioTimerRunning = true ↔ (ApplyAct m a).instances ≠ []) := by
      cases a with
      | actStart i =>
        refine ⟨(StartTimer_facts m i).2.1.trans ht, ?_, ?_⟩
        · intro _
          show (StartTimer m i).instances ≠ []
          rw [(StartTimer_facts m i).1]
          exact InsertInst_ne_nil _ _
        · intro _
          exact (StartTimer_facts m i).2.2.1
      | actStop i =>
        have hE : ApplyAct m (TimerAct.actStop i) =
            { m with pendingErase := InsertInst m.pendingErase i } := by
          simp [ApplyAct, StopTimer, ht]
        rw [hE]
        exact ⟨ht, by simpa using hio⟩
    exact ih (ApplyAct m a) hstep.1 hstep.2

/-- Applying the erasure backlog outside a tick erases exactly those
instances, keeps the tick flag down, leaves the backlog field alone, and
preserves the running-iff-nonempty relation. -/
theorem foldl_StopTimer_notick (l : List Nat) (m : Mgr)
    (h : m.tickInProgress = false) :
    (l.foldl StopTimer m).instances = l.foldl EraseInst m.instances ∧
    (l.foldl StopTimer m).tickInProgress = false ∧
    (l.foldl StopTimer m).pendingErase = m.pendingErase ∧
    ((m.ioTimerRunning = true ↔ m.instances ≠ []) →
      ((l.foldl StopTimer m).ioTimerRunning = true ↔
        (l.foldl StopTimer m).instances ≠ [])) := by
  induction l generalizing m with
  | nil => exact ⟨rfl, h, rfl, fun hio => hio⟩
  | cons i tl ih =>
    have hE := StopTimer_notick m i h
    rcases ih (StopTimer m i) (by rw [hE]; exact h) with ⟨h1, h2, h3, h4⟩
    refine ⟨?_, h2, ?_, ?_⟩
    · show (tl.foldl StopTimer (StopTimer m i)).instances =
        tl.foldl EraseInst (EraseInst m.instances i)
      rw [h1, hE]
    · show (tl.foldl StopTimer (StopTimer m i)).pendingErase = m.pendingErase
      rw [h3, hE]
    · intro hio
      apply h4
      rw [hE]
      by_cases he : (EraseInst m.instances i).isEmpty = true
      · have he' : EraseInst m.instances i = [] := by simpa using he
        simp [he, he']
      · have hne : EraseInst m.instances i ≠ [] := fun hnil => he (by simp [hnil])
        have hmne : m.instances ≠ [] := fun hnil => hne (by simp [EraseInst, hnil])
        simp [he, hne, hio.mpr hmne]

/-- Every externally observable manager operation preserves well-formedness. -/
theorem MgrWf_ApplyOp (m : Mgr) (op : MgrOp) (h : MgrWf m) :
    MgrWf (ApplyOp m op) := by
  rcases h with ⟨ht, hp, hio⟩
  cases op with
  | extStart i =>
    show MgrWf (StartTimer m i)
    refine ⟨(StartTimer_facts m i).2.1.trans ht, ?_, ?_⟩
    · have h4 := (StartTimer_facts m i).2.2.2
      rw [ht] at h4
      simpa [hp] using h4
    · constructor
      · intro _
        rw [(StartTimer_facts m i).1]
        exact InsertInst_ne_nil _ _
      · intro _
        exact (StartTimer_facts m i).2.2.1
  | extStop i =>
    show MgrWf (StopTimer m i)
    rw [StopTimer_notick m i ht]
    refine ⟨ht, hp, ?_⟩
    by_cases he : (EraseInst m.instances i).isEmpty = true
    · have he' : EraseInst m.instances i = [] := by simpa using he
      simp [he, he']
    · have hne : EraseInst m.instances i ≠ [] := fun hnil => he (by simp [hnil])
      have hmne : m.instances ≠ [] := fun hnil => hne (by simp [EraseInst, hnil])
      simp [he, hne, hio.mpr hmne]
  | tick acts =>
    show MgrWf (RunTimer m acts)
    have h1 := foldl_ApplyAct_inv acts { m with tickInProgress := true } rfl hio
    have h2 := foldl_StopTimer_notick
      ({ TickPhase m acts with tickInProgress := false } : Mgr).pendingErase
      ({ TickPhase m acts with tickInProgress := false } : Mgr) rfl
    exact ⟨h2.2.1, rfl, h2.2.2.2 h1.2⟩

/-- Well-formedness is preserved by any operation sequence. -/
theorem MgrWf_foldl (ops : List MgrOp) (m : Mgr) (h : MgrWf m) :
    MgrWf (ops.foldl ApplyOp m) := by
  induction ops generalizing m with
  | nil => exact h
  | cons op tl ih => exact ih (ApplyOp m op) (MgrWf_ApplyOp m op h)

/-- C9: an unregister request arriving while a tick is iterating does not
touch the instance set or the timer flag and is queued as a deferred
erasure; when the tick ends, the deferred erasures are applied to the set
and the backlog empties; after any sequence of register, unregister and
tick operations from the initial state the repeating timer runs exactly
when some instance is registered; and a registration always leaves the
timer running. -/
theorem C9_manager_scheduler :
    (∀ (m : Mgr) (i : Nat), m.tickInProgress = true →
      (StopTimer m i).instances = m.instances ∧
      (StopTimer m i).ioTimerRunning = m.ioTimerRunning ∧
      (StopTimer m i).pendingErase = InsertInst m.pendingErase i) ∧
    (∀ (m : Mgr) (acts : List TimerAct),
      (RunTimer m acts).instances =
        (TickPhase m acts).pendingErase.foldl EraseInst (TickPhase m acts).instances ∧
      (RunTimer m acts).pendingErase = []) ∧
    (∀ ops : List MgrOp,
      (ops.foldl ApplyOp MgrInit).ioTimerRunning = true ↔
        (ops.foldl ApplyOp MgrInit).instances ≠ []) ∧
    (∀ (m : Mgr) (i : Nat), (StartTimer m i).ioTimerRunning = true) := by
  refine ⟨?_, ?_, ?_, ?_⟩
  · intro m i h
    simp [StopTimer, h]
  · intro m acts
    have h2 := foldl_StopTimer_notick
      ({ TickPhase m acts with tickInProgress := false } : Mgr).pendingErase
      ({ TickPhase m acts with tickInProgress := false } : Mgr) rfl
    exact ⟨h2.1, rfl⟩
  · intro ops
    have hwf : MgrWf MgrInit := ⟨rfl, rfl, by simp [MgrInit]⟩
    exact (MgrWf_foldl ops MgrInit hwf).2.2
  · intro m i
    exact (StartTimer_facts m i).2.2.1

/-- A concrete manager state in the middle of a tick with two registered
instances. -/
def C9MidTick : Mgr :=
  { instances := [1, 2]
    tickInProgress := true
    pendingErase := []
    ioTimerRunning := true }

/-- Witness for C9 at concrete inputs: stopping instance 2 mid-tick leaves
the set and the timer untouched and queues the erasure, and the
running-iff-registered relation holds after a concrete register, tick-with-
unregister sequence. -/
theorem C9_manager_scheduler_witness :
    (StopTimer C9MidTick 2).instances = [1, 2] ∧
    (StopTimer C9MidTick 2).ioTimerRunning = true ∧
    (StopTimer C9MidTick 2).pendingErase = [2] ∧
    (([MgrOp.extStart 5, MgrOp.tick [TimerAct.actStop 5]].foldl ApplyOp
        MgrInit).ioTimerRunning = true ↔
      ([MgrOp.extStart 5, MgrOp.tick [TimerAct.actStop 5]].foldl ApplyOp
        MgrInit).instances ≠ []) :=
  ⟨(C9_manager_scheduler.1 C9MidTick 2 rfl).1.trans rfl,
   (C9_manager_scheduler.1 C9MidTick 2 rfl).2.1.trans rfl,
   (C9_manager_scheduler.1 C9MidTick 2 rfl).2.2.trans (by decide),
   C9_manager_scheduler.2.2.1 [MgrOp.extStart 5, MgrOp.tick [TimerAct.actStop 5]]⟩

end MCVD
